import Mathlib

/-!
Verification of the proof-of-self personal knowledge-base indexer.

This file gives a shallow embedding, in Lean, of the core components of the
repository: the identity generator (`generate_document_id`), the document
chunker (`DocumentChunker` / `chunk_document` in
`src/proof_of_self/core/chunker.py`), the migration engine
(`DataMigration` in `src/proof_of_monk/core/migrate.py`) and the indexer
entry point (`Indexer.index_from_adapter`), together with theorems about
the behaviour of these functions.

Python strings are modelled as Lean `String` (Python `len` counts code
points, as does `String.length`); Python `dict`s as insertion-ordered
association lists without duplicate keys; SQLite tables as Lean lists of
row structures; exceptions as `Option`/outcome values.
-/

/-! ### Python string primitives -/

/-- Python whitespace predicate: the characters matched by the regex class
`\s` and stripped by `str.strip()` for the ASCII inputs this code base
handles (space, tab, newline, carriage return, vertical tab, form feed). -/
def isPySpace (c : Char) : Bool :=
  c = ' ' || c = '\t' || c = '\n' || c = '\r' || c = '\x0b' || c = '\x0c'

/-- Python `str.strip()` on a character list: remove leading and trailing
whitespace. -/
def pyStripL (l : List Char) : List Char :=
  ((l.dropWhile isPySpace).reverse.dropWhile isPySpace).reverse

/-- Python `str.strip()`. -/
def pyStrip (s : String) : String :=
  String.mk (pyStripL s.data)

/-- Adds a character to the front of the first piece of a split result. -/
def consHead (c : Char) : List (List Char) → List (List Char)
  | [] => [[c]]
  | p :: ps => (c :: p) :: ps

/-- Split a character list at every whitespace character (pieces between
individual whitespace characters, possibly empty). -/
def splitOnWs : List Char → List (List Char)
  | [] => [[]]
  | c :: t => if isPySpace c then [] :: splitOnWs t else consHead c (splitOnWs t)

/-- Python `str.split()` with no argument: split on runs of whitespace and
drop empty pieces. -/
def pySplitWs (s : String) : List String :=
  ((splitOnWs s.data).filter (fun p => ¬ p.isEmpty)).map String.mk

/-- Python `str.replace('Z', '+00:00')`: every occurrence of the single
character `Z` is replaced by the string `+00:00`. -/
def pyReplaceZ (s : String) : String :=
  String.mk ((s.data.map (fun c => if c = 'Z' then "+00:00".data else [c])).flatten)

/-- Python `f"{x}"` applied to an optional string coming from a nullable
SQLite column: `None` renders as the four characters `None`. -/
def pyShowOpt : Option String → String
  | none => "None"
  | some s => s

/-! ### SHA-256 (the `hashlib.sha256(...).hexdigest()` call)

The repository delegates hashing to Python's `hashlib`.  We embed the full
SHA-256 algorithm over byte lists so that `generate_document_id` is a
concrete executable function; no theorem in this file depends on the
internals of the compression function. -/

/-- Truncate to a 32-bit word. -/
def w32 (n : Nat) : Nat := n % 4294967296

/-- 32-bit right rotation. -/
def rotr32 (k x : Nat) : Nat :=
  w32 (x / 2 ^ k + x * 2 ^ (32 - k))

/-- 32-bit bitwise exclusive or. -/
def xor32 (a b : Nat) : Nat := Nat.xor a b

/-- 32-bit bitwise complement. -/
def not32 (a : Nat) : Nat := 4294967295 - a

/-- SHA-256 round constants. -/
def shaK : List Nat :=
  [1116352408, 1899447441, 3049323471, 3921009573,
   961987163, 1508970993, 2453635748, 2870763221,
   3624381080, 310598401, 607225278, 1426881987,
   1925078388, 2162078206, 2614888103, 3248222580,
   3835390401, 4022224774, 264347078, 604807628,
   770255983, 1249150122, 1555081692, 1996064986,
   2554220882, 2821834349, 2952996808, 3210313671,
   3336571891, 3584528711, 113926993, 338241895,
   666307205, 773529912, 1294757372, 1396182291,
   1695183700, 1986661051, 2177026350, 2456956037,
   2730485921, 2820302411, 3259730800, 3345764771,
   3516065817, 3600352804, 4094571909, 275423344,
   430227734, 506948616, 659060556, 883997877,
   958139571, 1322822218, 1537002063, 1747873779,
   1955562222, 2024104815, 2227730452, 2361852424,
   2428436474, 2756734187, 3204031479, 3329325298]

/-- SHA-256 initial hash value. -/
def shaH0 : List Nat :=
  [1779033703, 3144134277,
   1013904242, 2773480762,
   1359893119, 2600822924,
   528734635, 1541459225]

/-- Big-endian byte encoding of `n` on `k` bytes. -/
def natToBytesBE (k n : Nat) : List Nat :=
  match k with
  | 0 => []
  | k + 1 => natToBytesBE k (n / 256) ++ [n % 256]

/-- SHA-256 message padding: append `0x80`, zero bytes up to 56 mod 64, and
the message bit length on eight big-endian bytes. -/
def shaPad (msg : List Nat) : List Nat :=
  let padZeros := (120 - (msg.length + 1) % 64) % 64
  msg ++ [0x80] ++ List.replicate padZeros 0 ++ natToBytesBE 8 (8 * msg.length)

/-- Split a byte list into 64-byte blocks, with a structural fuel
argument (any fuel at least the list length gives the block
decomposition itself, since each step consumes 64 bytes). -/
def shaBlocksF : Nat → List Nat → List (List Nat)
  | _, [] => []
  | 0, _ :: _ => []
  | fuel + 1, b :: l => (b :: l).take 64 :: shaBlocksF fuel ((b :: l).drop 64)

/-- Split a byte list into 64-byte blocks. -/
def shaBlocks (l : List Nat) : List (List Nat) :=
  shaBlocksF l.length l

/-- Group a 64-byte block into sixteen big-endian 32-bit words. -/
def blockWords (l : List Nat) : List Nat :=
  match l with
  | b0 :: b1 :: b2 :: b3 :: rest =>
      (((b0 * 256 + b1) * 256 + b2) * 256 + b3) :: blockWords rest
  | _ => []

/-- SHA-256 small sigma 0. -/
def ssig0 (x : Nat) : Nat := xor32 (xor32 (rotr32 7 x) (rotr32 18 x)) (x / 2 ^ 3)

/-- SHA-256 small sigma 1. -/
def ssig1 (x : Nat) : Nat := xor32 (xor32 (rotr32 17 x) (rotr32 19 x)) (x / 2 ^ 10)

/-- SHA-256 big sigma 0. -/
def bsig0 (x : Nat) : Nat := xor32 (xor32 (rotr32 2 x) (rotr32 13 x)) (rotr32 22 x)

/-- SHA-256 big sigma 1. -/
def bsig1 (x : Nat) : Nat := xor32 (xor32 (rotr32 6 x) (rotr32 11 x)) (rotr32 25 x)

/-- Message schedule: extend the sixteen block words to sixty-four. -/
def shaSchedule (ws : Array Nat) : Array Nat :=
  (List.range 48).foldl
    (fun a _ =>
      a.push (w32 (ssig1 (a.getD (a.size - 2) 0) + a.getD (a.size - 7) 0 +
        ssig0 (a.getD (a.size - 15) 0) + a.getD (a.size - 16) 0)))
    ws

/-- Working state of the SHA-256 compression function. -/
structure ShaState where
  a : Nat
  b : Nat
  c : Nat
  d : Nat
  e : Nat
  f : Nat
  g : Nat
  h : Nat

/-- One round of the SHA-256 compression function. -/
def shaRound (st : ShaState) (kw : Nat × Nat) : ShaState :=
  let ch := xor32 (Nat.land st.e st.f) (Nat.land (not32 st.e) st.g)
  let maj := xor32 (xor32 (Nat.land st.a st.b) (Nat.land st.a st.c)) (Nat.land st.b st.c)
  let t1 := w32 (st.h + bsig1 st.e + ch + kw.1 + kw.2)
  let t2 := w32 (bsig0 st.a + maj)
  ⟨w32 (t1 + t2), st.a, st.b, st.c, w32 (st.d + t1), st.e, st.f, st.g⟩

/-- Compress one 64-byte block into the running eight-word hash value. -/
def shaCompress (hv : List Nat) (block : List Nat) : List Nat :=
  let ws := shaSchedule (Array.mk (blockWords block))
  let pairs := List.zip shaK ws.toList
  let init : ShaState :=
    ⟨hv.getD 0 0, hv.getD 1 0, hv.getD 2 0, hv.getD 3 0,
     hv.getD 4 0, hv.getD 5 0, hv.getD 6 0, hv.getD 7 0⟩
  let fin := pairs.foldl shaRound init
  [w32 (hv.getD 0 0 + fin.a), w32 (hv.getD 1 0 + fin.b),
   w32 (hv.getD 2 0 + fin.c), w32 (hv.getD 3 0 + fin.d),
   w32 (hv.getD 4 0 + fin.e), w32 (hv.getD 5 0 + fin.f),
   w32 (hv.getD 6 0 + fin.g), w32 (hv.getD 7 0 + fin.h)]

/-- SHA-256 digest of a byte list, as eight 32-bit words. -/
def sha256Words (msg : List Nat) : List Nat :=
  (shaBlocks (shaPad msg)).foldl shaCompress shaH0

/-- Lower-case hexadecimal digit. -/
def hexDigit (n : Nat) : Char :=
  if n < 10 then Char.ofNat (48 + n) else Char.ofNat (87 + n)

/-- Lower-case fixed-width hexadecimal rendering of a number. -/
def toHex (width n : Nat) : List Char :=
  match width with
  | 0 => []
  | w + 1 => toHex w (n / 16) ++ [hexDigit (n % 16)]

/-- UTF-8 encoding of a single character (Python `str.encode()` default). -/
def utf8Bytes (c : Char) : List Nat :=
  let n := c.toNat
  if n < 128 then [n]
  else if n < 2048 then [192 + n / 64, 128 + n % 64]
  else if n < 65536 then [224 + n / 4096, 128 + n / 64 % 64, 128 + n % 64]
  else [240 + n / 262144, 128 + n / 4096 % 64, 128 + n / 64 % 64, 128 + n % 64]

/-- Python `s.encode()`: UTF-8 bytes of a string. -/
def strEncode (s : String) : List Nat :=
  (s.data.map utf8Bytes).flatten

/-- Python `hashlib.sha256(s.encode()).hexdigest()`. -/
def sha256Hex (s : String) : String :=
  String.mk (((sha256Words (strEncode s)).map (toHex 8)).flatten)

/-! ### Identity generator (`generate_document_id`, chunker.py lines 264-284) -/

/-- The content sample used for hashing: for large content, only the first
1000 characters (`content[:1000] if len(content) > 1000 else content`). -/
def contentSample (content : String) : String :=
  if content.length > 1000 then String.mk (content.data.take 1000) else content

/-- The string that is hashed:
`f"{content_sample}{source_path}{created_at}"`. -/
def uniqueStr (content source_path created_at : String) : String :=
  contentSample content ++ source_path ++ created_at

/-- Deterministic document ID: SHA-256 hex digest of the concatenation of
the content sample, the source path and the created-at string
(chunker.py `generate_document_id`). -/
def generate_document_id (content source_path created_at : String) : String :=
  sha256Hex (uniqueStr content source_path created_at)

/-! ### Metadata dictionaries (Python `dict`) -/

/-- Values stored in metadata dictionaries. -/
inductive PyVal where
  | vInt (n : Int)
  | vStr (s : String)
  | vBool (b : Bool)
  | vNone
  | vStrList (l : List String)
  | vEntities (isEmpty : Bool) (hashtags : Option (List String))
deriving DecidableEq, Repr

/-- A Python `dict` with string keys: an insertion-ordered association
list.  Real Python dicts never hold duplicate keys; theorems that need
this carry a `Nodup` hypothesis on the key list. -/
abbrev PyDict := List (String × PyVal)

/-- Python `d[k]` as a lookup: the value at the first occurrence of `k`. -/
def dictGet (d : PyDict) (k : String) : Option PyVal :=
  match d.find? (fun kv => kv.1 = k) with
  | some kv => some kv.2
  | none => none

/-- Python `d[k] = v`: replace the value at an existing key in place,
otherwise append the binding at the end (insertion order). -/
def dictInsert (d : PyDict) (k : String) (v : PyVal) : PyDict :=
  match d with
  | [] => [(k, v)]
  | (k0, v0) :: rest =>
      if k0 = k then (k0, v) :: rest else (k0, v0) :: dictInsert rest k v

/-- Python `d.update(other)`: set each binding of `other` in `d`, in
order. -/
def dictUpdate (d other : PyDict) : PyDict :=
  other.foldl (fun acc kv => dictInsert acc kv.1 kv.2) d

/-! ### Chunker (`DocumentChunker`, chunker.py) -/

/-- Chunker configuration (`DocumentChunker.__init__`).  In the source,
`overlap_size` is computed as `int(chunk_size * overlap_percent)` with a
float `overlap_percent`; we carry the resulting integer directly.
`min_chunk_size` is stored by the constructor but never read. -/
structure ChunkerConfig where
  chunk_size : Nat
  overlap_size : Nat
  min_chunk_size : Nat
deriving DecidableEq, Repr

/-- The default configuration: `chunk_size=800`, `overlap_percent=0.15`
(so `overlap_size = int(800 * 0.15) = 120`), `min_chunk_size=500`. -/
def defaultChunkerConfig : ChunkerConfig :=
  { chunk_size := 800, overlap_size := 120, min_chunk_size := 500 }

/-- A chunk of a larger document (the `Chunk` dataclass). -/
structure Chunk where
  chunk_id : String
  document_id : String
  chunk_index : Nat
  content : String
  metadata : PyDict
deriving DecidableEq

/-- Token estimate `len(text) // 4` (`DocumentChunker._estimate_tokens`). -/
def estimate_tokens (text : String) : Nat :=
  text.length / 4

/-- Whether content should be chunked: estimated tokens strictly above the
configured chunk size (`DocumentChunker.should_chunk`). -/
def should_chunk (cfg : ChunkerConfig) (content : String) : Bool :=
  estimate_tokens content > cfg.chunk_size

/-- The index just past the last newline inside the whitespace run at the
head of `t`; this is how far the regex `\n\s*\n` extends greedily after
its initial newline. -/
def paraMatchLen (t : List Char) : Nat :=
  let run := t.takeWhile isPySpace
  run.length - (run.reverse.takeWhile (fun c => ¬ (c = '\n'))).length

/-- Whether the regex `\n\s*\n` matches at the head of `c :: t`: the head
must be a newline and the following whitespace run must contain another
newline. -/
def paraMatchAt (c : Char) (t : List Char) : Bool :=
  c = '\n' && (t.takeWhile isPySpace).contains '\n'

/-- Python `re.split(r'\n\s*\n', content)` on a character list, with a
structural fuel argument (the recursion consumes at least one character
per step, so any fuel at least the list length gives the splitter
itself): leftmost greedy matches of a newline, whitespace, then a final
newline; pieces are the text between matches. -/
def paraSplitF : Nat → List Char → List (List Char)
  | _, [] => [[]]
  | 0, _ :: _ => [[]]
  | fuel + 1, c :: t =>
    if paraMatchAt c t then [] :: paraSplitF fuel (t.drop (paraMatchLen t))
    else consHead c (paraSplitF fuel t)

/-- Python `re.split(r'\n\s*\n', content)` on a character list. -/
def paraSplit (l : List Char) : List (List Char) :=
  paraSplitF l.length l

/-- Strip every piece and drop the empty ones
(`[s.strip() for s in segments if s.strip()]`). -/
def stripFilter (ps : List (List Char)) : List String :=
  ((ps.map pyStripL).filter (fun p => ¬ p = [])).map String.mk

/-- Split content into paragraph segments at blank-line boundaries and
drop empty segments (`DocumentChunker._split_into_segments`). -/
def split_into_segments (content : String) : List String :=
  stripFilter (paraSplit content.data)

/-- Whether the previous character allows a sentence split: the regex
lookbehind `(?<=[.!?])`. -/
def isSentEnd : Option Char → Bool
  | some c => c = '.' || c = '!' || c = '?'
  | none => false

/-- Python `re.split(r'(?<=[.!?])\s+', text)` on a character list, with a
structural fuel argument: split at maximal whitespace runs that directly
follow sentence punctuation. -/
def sentSplitF : Nat → Option Char → List Char → List (List Char)
  | _, _, [] => [[]]
  | 0, _, _ :: _ => [[]]
  | fuel + 1, prev, c :: t =>
    if isPySpace c && isSentEnd prev then
      [] :: sentSplitF fuel none (t.dropWhile isPySpace)
    else consHead c (sentSplitF fuel (some c) t)

/-- Python `re.split(r'(?<=[.!?])\s+', text)` on a character list. -/
def sentSplit (prev : Option Char) (l : List Char) : List (List Char) :=
  sentSplitF l.length prev l

/-- Split text into sentences and drop empty ones
(`DocumentChunker._split_into_sentences`). -/
def split_into_sentences (text : String) : List String :=
  stripFilter (sentSplit none text.data)

/-- Overlap tail taken from the just-closed chunk content
(`DocumentChunker._get_overlap_content`).  The source computes
`int(len(words) * (overlap_size / tokens))` with float division; this is
modelled by exact integer arithmetic `len(words) * overlap_size / tokens`
truncated. -/
def get_overlap_content (cfg : ChunkerConfig) (chunks : List String) : String :=
  if chunks = [] then ""
  else
    let full_content := String.intercalate " " chunks
    let tokens := estimate_tokens full_content
    if tokens ≤ cfg.overlap_size then full_content
    else
      let words := pySplitWs full_content
      let overlap_words := words.length * cfg.overlap_size / tokens
      if overlap_words > 0 then
        String.intercalate " " (words.drop (words.length - overlap_words))
      else ""

/-- Build a `Chunk` (`DocumentChunker._create_chunk`): id is
`document_id + "_chunk_" + index`; metadata is the computed mapping
(`chunk_index`, `token_count`, `char_count`) updated with the caller
metadata on top.  A `None` caller metadata behaves like the empty dict
(the source guards the update with `if metadata:`), so it is passed as
`[]`. -/
def create_chunk (document_id : String) (chunk_index : Nat) (content : String)
    (metadata : PyDict) : Chunk :=
  { chunk_id := document_id ++ "_chunk_" ++ toString chunk_index
    document_id := document_id
    chunk_index := chunk_index
    content := content
    metadata :=
      dictUpdate
        [("chunk_index", PyVal.vInt chunk_index),
         ("token_count", PyVal.vInt (estimate_tokens content)),
         ("char_count", PyVal.vInt content.length)]
        metadata }

/-- Loop state of `chunk_document`: accumulated chunks, the current chunk
content pieces, the running token count, and the next chunk index. -/
structure ChunkAcc where
  chunks : List Chunk
  cur : List String
  curTok : Nat
  idx : Nat

/-- Processing of one sentence inside the forced-split branch of
`chunk_document` (chunker.py lines 96-117). -/
def sentence_step (cfg : ChunkerConfig) (document_id : String) (metadata : PyDict)
    (st : ChunkAcc) (sentence : String) : ChunkAcc :=
  let sentence_tokens := estimate_tokens sentence
  if st.curTok + sentence_tokens > cfg.chunk_size then
    let closed :=
      if st.cur = [] then st
      else
        { st with
          chunks := st.chunks ++
            [create_chunk document_id st.idx (String.intercalate " " st.cur) metadata]
          idx := st.idx + 1 }
    let overlap_content := get_overlap_content cfg st.cur
    let newCur := if overlap_content = "" then [sentence] else [overlap_content, sentence]
    { closed with
      cur := newCur
      curTok := estimate_tokens (String.intercalate " " newCur) }
  else
    { st with cur := st.cur ++ [sentence], curTok := st.curTok + sentence_tokens }

/-- Processing of one paragraph segment in `chunk_document` (chunker.py
lines 89-138).  The float comparison `segment_tokens > chunk_size * 1.5`
is written as `2 * segment_tokens > 3 * chunk_size`, which is exact for
the integer sizes involved. -/
def segment_step (cfg : ChunkerConfig) (document_id : String) (metadata : PyDict)
    (st : ChunkAcc) (segment : String) : ChunkAcc :=
  let segment_tokens := estimate_tokens segment
  if 2 * segment_tokens > 3 * cfg.chunk_size then
    (split_into_sentences segment).foldl (sentence_step cfg document_id metadata) st
  else if st.curTok + segment_tokens > cfg.chunk_size then
    let closed :=
      if st.cur = [] then st
      else
        { st with
          chunks := st.chunks ++
            [create_chunk document_id st.idx (String.intercalate "\n\n" st.cur) metadata]
          idx := st.idx + 1 }
    let overlap_content := get_overlap_content cfg st.cur
    let newCur := if overlap_content = "" then [segment] else [overlap_content, segment]
    { closed with
      cur := newCur
      curTok := estimate_tokens (String.intercalate "\n\n" newCur) }
  else
    { st with cur := st.cur ++ [segment], curTok := st.curTok + segment_tokens }

/-- Chunk a document into overlapping pieces
(`DocumentChunker.chunk_document`): empty result when `should_chunk` is
false, otherwise pack paragraph segments (force-splitting oversized ones
into sentences), then save the final partial chunk. -/
def chunk_document (cfg : ChunkerConfig) (document_id content : String)
    (metadata : PyDict) : List Chunk :=
  if ¬ should_chunk cfg content then []
  else
    let segments := split_into_segments content
    let final := segments.foldl (segment_step cfg document_id metadata)
      { chunks := [], cur := [], curTok := 0, idx := 0 }
    if final.cur = [] then final.chunks
    else
      final.chunks ++
        [create_chunk document_id final.idx
          (String.intercalate "\n\n" final.cur) metadata]

/-! ### Stand-ins for Python standard-library calls used by the migration
engine.  These model external collaborators (`json.loads`,
`datetime.fromisoformat`), not repository code: what matters for the
theorems below is only that they are total Lean functions that succeed on
well-formed inputs and fail (return `none`, the embedded exception) on
malformed ones. -/

/-- Python truthiness of an optional string (`None` and `""` are falsy). -/
def truthyStr : Option String → Bool
  | none => false
  | some s => ¬ s.isEmpty

/-- Python `bool(x)` on a nullable SQLite integer column (`None` and `0`
are falsy). -/
def truthyInt : Option Int → Bool
  | none => false
  | some n => ¬ n = 0

/-- A nullable SQLite text value as a metadata value. -/
def optStrVal : Option String → PyVal
  | none => PyVal.vNone
  | some s => PyVal.vStr s

/-- A nullable SQLite integer value as a metadata value. -/
def optIntVal : Option Int → PyVal
  | none => PyVal.vNone
  | some n => PyVal.vInt n

/-- Result of parsing the JSON `entities` blob of a tweet row: emptiness
(for Python truthiness) and the `hashtags` entry when present. -/
structure JsonEntities where
  isEmpty : Bool
  hashtags : Option (List String)
deriving DecidableEq, Repr

/-- Split a character list at every occurrence of a separator character. -/
def splitOnChar (sep : Char) : List Char → List (List Char)
  | [] => [[]]
  | c :: t => if c = sep then [] :: splitOnChar sep t else consHead c (splitOnChar sep t)

/-- Drop one matching leading and trailing double quote. -/
def unquote (l : List Char) : List Char :=
  match l with
  | '\"' :: t =>
    match t.reverse with
    | '\"' :: r => r.reverse
    | _ => l
  | _ => l

/-- The items of a bracketed, comma-separated, double-quoted JSON list
body. -/
def jsonListItems (l : List Char) : List String :=
  ((splitOnChar ',' l).map (fun p => unquote (pyStripL p))).filter (fun p => ¬ p = [])
    |>.map String.mk

/-- Stand-in model for the external `json.loads` call on a JSON array of
strings (the `tags` column of a thought row): succeeds on a bracketed
list, fails (raises) otherwise. -/
def json_loads_strlist (s : String) : Option (List String) :=
  match pyStripL s.data with
  | '[' :: t =>
    match t.reverse with
    | ']' :: r => some (jsonListItems r.reverse)
    | _ => none
  | _ => none

/-- Substring test on character lists (Python `in` on strings). -/
def hasSub (pat : List Char) : List Char → Bool
  | [] => pat.isEmpty
  | c :: t => pat.isPrefixOf (c :: t) || hasSub pat t

/-- Stand-in model for the external `json.loads` call on the `entities`
column of a tweet row: succeeds on a braced JSON object, recording
whether the object is empty and, when a `hashtags` key is present, the
quoted strings of its list value; fails (raises) otherwise. -/
def json_loads_entities (s : String) : Option JsonEntities :=
  match pyStripL s.data with
  | '{' :: t =>
    match t.reverse with
    | '}' :: r =>
      let body := pyStripL r.reverse
      let hashtags :=
        if hasSub "\"hashtags\"".data body then
          some (jsonListItems ((body.dropWhile (fun c => ¬ c = '[')).drop 1
            |>.takeWhile (fun c => ¬ c = ']')))
        else none
      some { isEmpty := body = [], hashtags := hashtags }
    | _ => none
  | _ => none

/-- Whether a character may appear in the time-of-day / offset tail of an
ISO timestamp. -/
def isTimeTailChar (c : Char) : Bool :=
  c.isDigit || c = ':' || c = '.' || c = '+' || c = '-'

/-- Whether a character list is an acceptable `HH:MM...` time part. -/
def timePartOK (l : List Char) : Bool :=
  match l with
  | h1 :: h2 :: ':' :: m1 :: m2 :: rest =>
    h1.isDigit && h2.isDigit && m1.isDigit && m2.isDigit &&
    (h1.toNat - 48) * 10 + (h2.toNat - 48) < 24 &&
    (m1.toNat - 48) * 10 + (m2.toNat - 48) < 60 &&
    rest.all isTimeTailChar
  | _ => false

/-- Stand-in model for the external `datetime.fromisoformat` call: accepts
`YYYY-MM-DD`, optionally followed by a one-character separator and a
time-of-day part; returns the canonical string form of the parsed
timestamp (the string itself) on success and fails (raises `ValueError`)
otherwise. -/
def fromisoformat (s : String) : Option String :=
  match s.data with
  | y1 :: y2 :: y3 :: y4 :: '-' :: m1 :: m2 :: '-' :: d1 :: d2 :: rest =>
    if y1.isDigit && y2.isDigit && y3.isDigit && y4.isDigit &&
       m1.isDigit && m2.isDigit && d1.isDigit && d2.isDigit &&
       1 ≤ (m1.toNat - 48) * 10 + (m2.toNat - 48) &&
       (m1.toNat - 48) * 10 + (m2.toNat - 48) ≤ 12 &&
       1 ≤ (d1.toNat - 48) * 10 + (d2.toNat - 48) &&
       (d1.toNat - 48) * 10 + (d2.toNat - 48) ≤ 31 &&
       (match rest with
        | [] => true
        | _ :: time => timePartOK time) then some s
    else none
  | _ => none

/-! ### Storage layer (`Database`, proof_of_self/core/database.py)

The `documents` table is a list of rows unique by `id`;
`insert_document` has `INSERT OR REPLACE` (upsert) semantics.  The
`tweets` and `thoughts` legacy tables are lists of rows, read-only for
the migration engine.  Metadata and tags are stored structurally rather
than as their `json.dumps` text. -/

/-- A row of the unified `documents` table. -/
structure Doc where
  id : String
  source_type : String
  content_type : Option String
  title : Option String
  author : Option String
  content : Option String
  source_path : Option String
  is_chunked : Bool
  metadata : PyDict
  tags : List String
  created_at : Option String
deriving DecidableEq, Repr

/-- A row of the legacy `tweets` table.  Values are nullable (`NOT NULL`
constraints notwithstanding, the migration code is exercised on
arbitrarily malformed rows). -/
structure TweetRow where
  tweet_id : Option String
  user_id : Option String
  created_at : Option String
  full_text : Option String
  reply_to_tweet_id : Option String
  reply_to_user : Option String
  retweet_count : Option Int
  favorite_count : Option Int
  is_retweet : Option Int
  is_reply : Option Int
  entities : Option String
deriving DecidableEq, Repr

/-- A row of the legacy `thoughts` table. -/
structure ThoughtRow where
  id : Int
  content : Option String
  tags : Option String
  category : Option String
  created_at : Option String
  updated_at : Option String
deriving DecidableEq, Repr

/-- The SQLite store. -/
structure Db where
  tweets : List TweetRow
  thoughts : List ThoughtRow
  documents : List Doc
deriving DecidableEq, Repr

/-- Marker for the `datetime.now()` fallback used by `insert_document`
when `created_at` is `None` (the single-threaded model has no clock; no
theorem reads this value). -/
def nowMarker : String := "datetime.now()"

/-- The storage insert contract used by the migration engine and indexer
(`Database.insert_document`, proof_of_self/core/database.py lines
156-193): `INSERT OR REPLACE` keyed by `id`, with
`created_at or datetime.now()`. -/
def insert_document (documents : List Doc) (d : Doc) : List Doc :=
  documents.filter (fun x => ¬ x.id = d.id) ++
    [{ d with created_at := some (d.created_at.getD nowMarker) }]

/-! ### Migration engine (`DataMigration`, migrate.py) -/

/-- Per-record migration stats (`{total, migrated, skipped, errors}`). -/
structure MigStats where
  total : Nat
  migrated : Nat
  skipped : Nat
  errors : Nat
deriving DecidableEq, Repr

/-- What processing one legacy row does: raise (caught by the per-record
`except`), skip a duplicate, or produce a document to insert. -/
inductive RowOutcome where
  | err
  | skipped
  | migrated (d : Doc)
deriving DecidableEq

/-- The entities-parsing step of a tweet row
(`json.loads(entities_json) if entities_json else None`): `none` is the
per-record exception, `some e` the parsed optional entities value. -/
def tweetEntitiesStep (r : TweetRow) : Option (Option JsonEntities) :=
  match r.entities with
  | none => some none
  | some s =>
    if s.isEmpty then some none
    else
      match json_loads_entities s with
      | none => none
      | some e => some (some e)

/-- The synthetic source path of a tweet row
(`f"twitter://{user_id}/{tweet_id}"`). -/
def tweetSourcePath (r : TweetRow) : String :=
  "twitter://" ++ pyShowOpt r.user_id ++ "/" ++ pyShowOpt r.tweet_id

/-- The document id a tweet row computes, when it gets that far: requires
the entities parse to succeed and `full_text` to be non-NULL (a NULL
`full_text` raises `TypeError` inside `generate_document_id`'s `len`). -/
def tweetDocId (r : TweetRow) : Option String :=
  match tweetEntitiesStep r with
  | none => none
  | some _ =>
    match r.full_text with
    | none => none
    | some full_text =>
      some (generate_document_id full_text (tweetSourcePath r) (pyShowOpt r.created_at))

/-- Tag extraction from parsed entities
(`if entities and "hashtags" in entities: tags = entities["hashtags"]`). -/
def tweetTags (entities : Option JsonEntities) : List String :=
  match entities with
  | none => []
  | some e =>
    if ¬ e.isEmpty then
      match e.hashtags with
      | some hs => hs
      | none => []
    else []

/-- The metadata mapping built for a tweet row (migrate.py lines
99-113). -/
def tweetMetadata (r : TweetRow) (entities : Option JsonEntities) : PyDict :=
  [("tweet_id", optStrVal r.tweet_id),
   ("username", optStrVal r.user_id),
   ("retweet_count", optIntVal r.retweet_count),
   ("favorite_count", optIntVal r.favorite_count),
   ("is_retweet", PyVal.vBool (truthyInt r.is_retweet)),
   ("is_reply", PyVal.vBool (truthyInt r.is_reply))] ++
  (if truthyStr r.reply_to_tweet_id then
    [("reply_to_tweet_id", optStrVal r.reply_to_tweet_id)] else []) ++
  (if truthyStr r.reply_to_user then
    [("reply_to_user", optStrVal r.reply_to_user)] else []) ++
  (match entities with
   | some e => if ¬ e.isEmpty then [("entities", PyVal.vEntities e.isEmpty e.hashtags)] else []
   | none => [])

/-- The derived content type of a tweet row (retweet / reply / tweet). -/
def tweetContentType (r : TweetRow) : String :=
  if truthyInt r.is_retweet then "retweet"
  else if truthyInt r.is_reply then "reply"
  else "tweet"

/-- The document a tweet row migrates to (the `insert_document` call at
migrate.py lines 130-143). -/
def tweetDocOf (r : TweetRow) (entities : Option JsonEntities) (full_text : String)
    (created_at_dt : Option String) : Doc :=
  { id := generate_document_id full_text (tweetSourcePath r) (pyShowOpt r.created_at)
    source_type := "twitter"
    content_type := some (tweetContentType r)
    title := none
    author := r.user_id
    content := some full_text
    source_path := some (tweetSourcePath r)
    is_chunked := false
    metadata := tweetMetadata r entities
    tags := tweetTags entities
    created_at := created_at_dt }

/-- The timestamp-conversion step of a tweet row (migrate.py lines
124-127): a string `created_at` goes through
`datetime.fromisoformat(created_at.replace('Z', '+00:00'))`, which may
raise. -/
def tweetConvert (r : TweetRow) (entities : Option JsonEntities)
    (full_text : String) : RowOutcome :=
  match r.created_at with
  | some s =>
    match fromisoformat (pyReplaceZ s) with
    | none => RowOutcome.err
    | some dt => RowOutcome.migrated (tweetDocOf r entities full_text (some dt))
  | none => RowOutcome.migrated (tweetDocOf r entities full_text none)

/-- The dedup probe of a tweet row (migrate.py lines 85-91): an existing
row with the derived id makes the record a skip, otherwise processing
continues. -/
def tweetProbe (documents : List Doc) (r : TweetRow) (entities : Option JsonEntities)
    (full_text : String) : RowOutcome :=
  if documents.any (fun d => d.id =
      generate_document_id full_text (tweetSourcePath r) (pyShowOpt r.created_at)) then
    RowOutcome.skipped
  else tweetConvert r entities full_text

/-- Processing of one tweet row against the current `documents` table
(migrate.py lines 60-152), in source order: parse entities, derive the
document id (a NULL `full_text` raises first), probe for a duplicate,
build tags / metadata / content type, convert the timestamp, and produce
the document to insert. -/
def tweetOutcome (documents : List Doc) (r : TweetRow) : RowOutcome :=
  match tweetEntitiesStep r with
  | none => RowOutcome.err
  | some entities =>
    match r.full_text with
    | none => RowOutcome.err
    | some full_text => tweetProbe documents r entities full_text

/-- One iteration of the tweet-migration loop: dispatch on the row outcome
and bump exactly one counter; the insert is skipped when `dry_run`. -/
def tweetFold (dry_run : Bool) (acc : Db × MigStats) (r : TweetRow) : Db × MigStats :=
  match tweetOutcome acc.1.documents r with
  | RowOutcome.err => (acc.1, { acc.2 with errors := acc.2.errors + 1 })
  | RowOutcome.skipped => (acc.1, { acc.2 with skipped := acc.2.skipped + 1 })
  | RowOutcome.migrated d =>
    (if dry_run then acc.1
     else { acc.1 with documents := insert_document acc.1.documents d },
     { acc.2 with migrated := acc.2.migrated + 1 })

/-- Migrate tweets from the `tweets` table to the `documents` table
(`DataMigration.migrate_tweets_to_documents`). -/
def migrate_tweets_to_documents (dry_run : Bool) (db : Db) : Db × MigStats :=
  db.tweets.foldl (tweetFold dry_run)
    (db, { total := db.tweets.length, migrated := 0, skipped := 0, errors := 0 })

/-- The tags-parsing step of a thought row
(`json.loads(tags_json) if tags_json else []`). -/
def thoughtTagsStep (r : ThoughtRow) : Option (List String) :=
  match r.tags with
  | none => some []
  | some s =>
    if s.isEmpty then some []
    else json_loads_strlist s

/-- The synthetic source path of a thought row (`f"thought://{id}"`). -/
def thoughtSourcePath (r : ThoughtRow) : String :=
  "thought://" ++ toString r.id

/-- The document id a thought row computes, when it gets that far. -/
def thoughtDocId (r : ThoughtRow) : Option String :=
  match thoughtTagsStep r with
  | none => none
  | some _ =>
    match r.content with
    | none => none
    | some content =>
      some (generate_document_id content (thoughtSourcePath r) (pyShowOpt r.created_at))

/-- The document a thought row migrates to (the `insert_document` call at
migrate.py lines 232-245). -/
def thoughtDocOf (r : ThoughtRow) (tags : List String) (content : String)
    (created_at_dt : Option String) : Doc :=
  { id := generate_document_id content (thoughtSourcePath r) (pyShowOpt r.created_at)
    source_type := "user"
    content_type := some "note"
    title := none
    author := none
    content := some content
    source_path := some (thoughtSourcePath r)
    is_chunked := false
    metadata :=
      [("thought_id", PyVal.vInt r.id),
       ("category", optStrVal r.category),
       ("updated_at", optStrVal r.updated_at)]
    tags := tags
    created_at := created_at_dt }

/-- The timestamp-conversion step of a thought row (migrate.py lines
225-229): a string `created_at` goes through `datetime.fromisoformat`,
which may raise. -/
def thoughtConvert (r : ThoughtRow) (tags : List String) (content : String) : RowOutcome :=
  match r.created_at with
  | some s =>
    match fromisoformat s with
    | none => RowOutcome.err
    | some dt => RowOutcome.migrated (thoughtDocOf r tags content (some dt))
  | none => RowOutcome.migrated (thoughtDocOf r tags content none)

/-- The dedup probe of a thought row (migrate.py lines 209-215). -/
def thoughtProbe (documents : List Doc) (r : ThoughtRow) (tags : List String)
    (content : String) : RowOutcome :=
  if documents.any (fun d => d.id =
      generate_document_id content (thoughtSourcePath r) (pyShowOpt r.created_at)) then
    RowOutcome.skipped
  else thoughtConvert r tags content

/-- Processing of one thought row against the current `documents` table
(migrate.py lines 190-251). -/
def thoughtOutcome (documents : List Doc) (r : ThoughtRow) : RowOutcome :=
  match thoughtTagsStep r with
  | none => RowOutcome.err
  | some tags =>
    match r.content with
    | none => RowOutcome.err
    | some content => thoughtProbe documents r tags content

/-- One iteration of the thought-migration loop. -/
def thoughtFold (dry_run : Bool) (acc : Db × MigStats) (r : ThoughtRow) : Db × MigStats :=
  match thoughtOutcome acc.1.documents r with
  | RowOutcome.err => (acc.1, { acc.2 with errors := acc.2.errors + 1 })
  | RowOutcome.skipped => (acc.1, { acc.2 with skipped := acc.2.skipped + 1 })
  | RowOutcome.migrated d =>
    (if dry_run then acc.1
     else { acc.1 with documents := insert_document acc.1.documents d },
     { acc.2 with migrated := acc.2.migrated + 1 })

/-- Migrate thoughts from the `thoughts` table to the `documents` table
(`DataMigration.migrate_thoughts_to_documents`). -/
def migrate_thoughts_to_documents (dry_run : Bool) (db : Db) : Db × MigStats :=
  db.thoughts.foldl (thoughtFold dry_run)
    (db, { total := db.thoughts.length, migrated := 0, skipped := 0, errors := 0 })

/-- Combined stats of a full migration run. -/
structure FullStats where
  tweets : MigStats
  thoughts : MigStats
  total_migrated : Nat
  total_errors : Nat
  dry_run : Bool
deriving DecidableEq, Repr

/-- Run tweet migration then thought migration and aggregate the stats
(`DataMigration.run_full_migration`). -/
def run_full_migration (dry_run : Bool) (db : Db) : Db × FullStats :=
  ((migrate_thoughts_to_documents dry_run (migrate_tweets_to_documents dry_run db).1).1,
   { tweets := (migrate_tweets_to_documents dry_run db).2
     thoughts :=
       (migrate_thoughts_to_documents dry_run (migrate_tweets_to_documents dry_run db).1).2
     total_migrated :=
       (migrate_tweets_to_documents dry_run db).2.migrated +
         (migrate_thoughts_to_documents dry_run
           (migrate_tweets_to_documents dry_run db).1).2.migrated
     total_errors :=
       (migrate_tweets_to_documents dry_run db).2.errors +
         (migrate_thoughts_to_documents dry_run
           (migrate_tweets_to_documents dry_run db).1).2.errors
     dry_run := dry_run })

/-! ### Indexer (`Indexer.index_from_adapter`, proof_of_self/core/indexer.py) -/

/-- A record produced by an adapter's `parse()`: a mapping with a `type`
discriminator and document fields.  `created_at` carries the ISO string
of the datetime object. -/
structure IndexRecord where
  type : Option String
  content : Option String
  source_path : Option String
  created_at : Option String
  source_type : Option String
  content_type : Option String
  title : Option String
  author : Option String
  metadata : Option PyDict
  tags : Option (List String)
deriving DecidableEq, Repr

/-- An adapter: `validate_source()` plus the lazy record sequence that
`parse()` yields. -/
structure Adapter where
  validate_source : Bool
  records : List IndexRecord

/-- Counts returned by `index_from_adapter`. -/
structure IndexCounts where
  documents : Nat
  errors : Nat
deriving DecidableEq, Repr

/-- Index one document record (`Indexer._index_document`): a missing
`content` key raises `KeyError` (caught by the caller's per-record
`except`); the id is derived from content, `source_path` (default `""`)
and `created_at.isoformat() if created_at else ""`. -/
def index_document (documents : List Doc) (r : IndexRecord) : Option (List Doc) :=
  match r.content with
  | none => none
  | some content =>
    let source_path := r.source_path.getD ""
    let created_at_str := match r.created_at with
      | some s => s
      | none => ""
    let doc_id := generate_document_id content source_path created_at_str
    some (insert_document documents
      { id := doc_id
        source_type := r.source_type.getD "unknown"
        content_type := r.content_type
        title := r.title
        author := r.author
        content := some content
        source_path := some source_path
        is_chunked := false
        metadata := r.metadata.getD []
        tags := r.tags.getD []
        created_at := r.created_at })

/-- One iteration of the indexing loop (indexer.py lines 51-69): a
`"document"` record is indexed (a per-record exception counts under
`errors`), any other record type counts under `errors`. -/
def indexFold (acc : List Doc × IndexCounts) (r : IndexRecord) : List Doc × IndexCounts :=
  if r.type = some "document" then
    match index_document acc.1 r with
    | none => (acc.1, { acc.2 with errors := acc.2.errors + 1 })
    | some docs => (docs, { acc.2 with documents := acc.2.documents + 1 })
  else (acc.1, { acc.2 with errors := acc.2.errors + 1 })

/-- Index all data from an adapter (`Indexer.index_from_adapter`): a
failed `validate_source()` raises `ValueError` before any record of
`adapter.parse()` is consumed; otherwise every record is processed and
counted. -/
def index_from_adapter (adapter : Adapter) (db : Db) : Except String (Db × IndexCounts) :=
  if ¬ adapter.validate_source then
    Except.error "Invalid data source"
  else
    let res := adapter.records.foldl indexFold (db.documents, { documents := 0, errors := 0 })
    Except.ok ({ db with documents := res.1 }, res.2)

/-! ### Shared helper lemmas -/

/-- A predicate preserved by every step of a left fold holds of the
result. -/
theorem foldl_inv {α β : Type} (f : α → β → α) (P : α → Prop)
    (l : List β) (st : α) (hstep : ∀ st x, x ∈ l → P st → P (f st x)) (h0 : P st) :
    P (l.foldl f st) := by
  induction l generalizing st with
  | nil => exact h0
  | cons a t ih =>
    exact ih (f st a) (fun s x hx hp => hstep s x (List.mem_cons_of_mem a hx) hp)
      (hstep st a (List.mem_cons_self a t) h0)

/-- A predicate established by every step of a left fold holds of the
result of folding a non-empty list. -/
theorem foldl_last {α β : Type} (f : α → β → α) (P : α → Prop)
    (l : List β) (st : α) (hstep : ∀ st x, x ∈ l → P (f st x)) (hne : l ≠ []) :
    P (l.foldl f st) := by
  induction l generalizing st with
  | nil => exact absurd rfl hne
  | cons a t ih =>
    cases t with
    | nil => exact hstep st a (List.mem_cons_self a [])
    | cons b u =>
      exact ih (f st a)
        (fun s x hx => hstep s x (List.mem_cons_of_mem a hx)) (by simp)

/-! ### Claim C7: the chunking threshold -/

/-- C7: `should_chunk` returns true iff the estimated token count
`len(content) // 4` strictly exceeds the configured `chunk_size`; and
whenever `should_chunk` is false, `chunk_document` returns the empty
sequence. -/
theorem should_chunk_threshold (cfg : ChunkerConfig) (document_id content : String)
    (metadata : PyDict) :
    (should_chunk cfg content = true ↔ content.length / 4 > cfg.chunk_size) ∧
    (should_chunk cfg content = false →
      chunk_document cfg document_id content metadata = []) := by
  constructor
  · simp [should_chunk, estimate_tokens]
  · intro h
    simp [chunk_document, h]

/-- Witness for C7 at the spec's own scenario: the short two-paragraph
document is not chunked and yields no chunks. -/
theorem should_chunk_threshold_witness :
    should_chunk defaultChunkerConfig "para one.\n\npara two." = false ∧
    chunk_document defaultChunkerConfig "doc" "para one.\n\npara two." [] = [] :=
  ⟨by decide,
   (should_chunk_threshold defaultChunkerConfig "doc" "para one.\n\npara two." []).2
     (by decide)⟩

/-! ### Claim C5: identity is a pure function of the content sample -/

/-- The content sample always equals the first 1000 characters. -/
theorem contentSample_eq_take (content : String) :
    contentSample content = String.mk (content.data.take 1000) := by
  unfold contentSample
  by_cases h : content.length > 1000
  · rw [if_pos h]
  · rw [if_neg h]
    have hle : content.data.length ≤ 1000 := Nat.le_of_not_lt h
    rw [List.take_of_length_le hle]

/-- C5: `generate_document_id` is a pure function of
`(content[:1000], source_path, created_at)`: being a function of its
arguments, identical inputs trivially give identical output, and two
content strings agreeing on their first 1000 characters give the same
id with the same provenance. -/
theorem generate_document_id_depends_on_sample (c1 c2 source_path created_at : String)
    (h : c1.data.take 1000 = c2.data.take 1000) :
    generate_document_id c1 source_path created_at =
      generate_document_id c2 source_path created_at := by
  unfold generate_document_id uniqueStr
  rw [contentSample_eq_take c1, contentSample_eq_take c2, h]

/-- Witness for C5: a 1001-character string and the string obtained by
changing its character past position 1000 hash to the same id. -/
theorem generate_document_id_depends_on_sample_witness :
    generate_document_id (String.mk (List.replicate 1001 'a')) "p" "t" =
      generate_document_id (String.mk (List.replicate 1000 'a' ++ ['b'])) "p" "t" :=
  generate_document_id_depends_on_sample _ _ "p" "t" (by
    show (List.replicate 1001 'a').take 1000 = (List.replicate 1000 'a' ++ ['b']).take 1000
    rw [List.take_replicate,
      List.take_left' (show (List.replicate 1000 'a').length = 1000 from List.length_replicate 1000 'a'),
      Nat.min_eq_left (by norm_num)])

/-! ### Claim C2: provenance sensitivity of the identity -/

/-- Counterexample to C2 as stated: the three fields are concatenated
with no separator, so the distinct provenance pairs `("ab", "")` and
`("a", "b")` produce the same hash input and hence the same id. -/
theorem generate_document_id_provenance_collision :
    (("ab", "") : String × String) ≠ ("a", "b") ∧
    generate_document_id "" "ab" "" = generate_document_id "" "a" "b" := by
  refine ⟨by decide, ?_⟩
  show sha256Hex (uniqueStr "" "ab" "") = sha256Hex (uniqueStr "" "a" "b")
  have h : uniqueStr "" "ab" "" = uniqueStr "" "a" "b" := by decide
  rw [h]

/-- C2 amended: with the same content, the provenance pair reaches the
hash only through the concatenation `source_path + created_at`, so
whenever those concatenations differ the hash inputs differ, and —
absent a SHA-256 collision on those two inputs (the second conjunct's
premise states collision-freedom exactly) — the ids differ as well;
pairs with equal concatenation collide to the same id (the
counterexample above). -/
theorem generate_document_id_provenance_sensitivity (content sp1 ca1 sp2 ca2 : String)
    (h : sp1 ++ ca1 ≠ sp2 ++ ca2) :
    uniqueStr content sp1 ca1 ≠ uniqueStr content sp2 ca2 ∧
    ((sha256Hex (uniqueStr content sp1 ca1) = sha256Hex (uniqueStr content sp2 ca2) →
        uniqueStr content sp1 ca1 = uniqueStr content sp2 ca2) →
      generate_document_id content sp1 ca1 ≠ generate_document_id content sp2 ca2) := by
  have hne : uniqueStr content sp1 ca1 ≠ uniqueStr content sp2 ca2 := by
    unfold uniqueStr
    intro he
    apply h
    have hd : (contentSample content).data ++ (sp1.data ++ ca1.data) =
        (contentSample content).data ++ (sp2.data ++ ca2.data) := by
      have := congrArg String.data he
      simpa [String.data_append, List.append_assoc] using this
    have hlist : sp1.data ++ ca1.data = sp2.data ++ ca2.data :=
      List.append_cancel_left hd
    have : (sp1 ++ ca1).data = (sp2 ++ ca2).data := by
      simpa [String.data_append] using hlist
    cases hfst : sp1 ++ ca1 with
    | mk d1 =>
      cases hsnd : sp2 ++ ca2 with
      | mk d2 =>
        rw [hfst, hsnd] at this
        simpa using congrArg String.mk this
  exact ⟨hne, fun hnc hid => hne (hnc hid)⟩

set_option maxRecDepth 4000 in
/-- Witness for the amended C2: provenance pairs with different
concatenations give different hash inputs, and evaluating the embedded
SHA-256 shows the two ids really differ at this instance (discharging
the collision-freedom premise by computing both digests). -/
theorem generate_document_id_provenance_sensitivity_witness :
    uniqueStr "x" "p" "q" ≠ uniqueStr "x" "r" "s" ∧
    generate_document_id "x" "p" "q" ≠ generate_document_id "x" "r" "s" := by
  have t := generate_document_id_provenance_sensitivity "x" "p" "q" "r" "s" (by decide)
  exact ⟨t.1, t.2 (fun heq => absurd heq (by decide))⟩

/-! ### Claim C9: failed source validation -/

/-- C9: when `validate_source()` is false, `index_from_adapter` raises
`ValueError` before consuming any record — the result is the error
value, for every record sequence the adapter would have produced, and
no store is returned (the caller's store is untouched). -/
theorem index_from_adapter_invalid_source (adapter : Adapter) (db : Db)
    (h : adapter.validate_source = false) :
    index_from_adapter adapter db = Except.error "Invalid data source" := by
  simp [index_from_adapter, h]

/-- Witness for C9: an invalid adapter holding a parseable record is
rejected without indexing it. -/
theorem index_from_adapter_invalid_source_witness :
    index_from_adapter
      { validate_source := false
        records := [{ type := some "document", content := some "c",
                      source_path := none, created_at := none, source_type := none,
                      content_type := none, title := none, author := none,
                      metadata := none, tags := none }] }
      { tweets := [], thoughts := [], documents := [] } =
      Except.error "Invalid data source" :=
  index_from_adapter_invalid_source _ _ rfl

/-! ### Claim C8: dry_run performs no write -/

/-- A dry-run tweet step never changes the store. -/
theorem tweetFold_dry_db (acc : Db × MigStats) (r : TweetRow) :
    (tweetFold true acc r).1 = acc.1 := by
  unfold tweetFold
  cases tweetOutcome acc.1.documents r <;> simp

/-- A dry-run thought step never changes the store. -/
theorem thoughtFold_dry_db (acc : Db × MigStats) (r : ThoughtRow) :
    (thoughtFold true acc r).1 = acc.1 := by
  unfold thoughtFold
  cases thoughtOutcome acc.1.documents r <;> simp

/-- C8: with `dry_run=True`, `migrate_tweets_to_documents` and
`migrate_thoughts_to_documents` perform every derivation, dedup probe and
counting step but leave the whole store — the documents table and every
other table — unchanged. -/
theorem migrate_dry_run_no_write (db : Db) :
    (migrate_tweets_to_documents true db).1 = db ∧
    (migrate_thoughts_to_documents true db).1 = db := by
  constructor
  · unfold migrate_tweets_to_documents
    exact foldl_inv (tweetFold true) (fun acc => acc.1 = db) db.tweets _
      (fun st x _ hp => by show (tweetFold true st x).1 = db; rw [tweetFold_dry_db]; exact hp) rfl
  · unfold migrate_thoughts_to_documents
    exact foldl_inv (thoughtFold true) (fun acc => acc.1 = db) db.thoughts _
      (fun st x _ hp => by show (thoughtFold true st x).1 = db; rw [thoughtFold_dry_db]; exact hp) rfl

/-! ### Claim C10: the three counters partition the batch -/

/-- Each tweet step bumps exactly one of the three counters and leaves
`total` alone. -/
theorem tweetFold_stats (dry_run : Bool) (acc : Db × MigStats) (r : TweetRow) :
    (tweetFold dry_run acc r).2.migrated + (tweetFold dry_run acc r).2.skipped +
        (tweetFold dry_run acc r).2.errors =
      acc.2.migrated + acc.2.skipped + acc.2.errors + 1 ∧
    (tweetFold dry_run acc r).2.total = acc.2.total := by
  unfold tweetFold
  cases tweetOutcome acc.1.documents r <;> simp <;> omega

/-- Each thought step bumps exactly one of the three counters and leaves
`total` alone. -/
theorem thoughtFold_stats (dry_run : Bool) (acc : Db × MigStats) (r : ThoughtRow) :
    (thoughtFold dry_run acc r).2.migrated + (thoughtFold dry_run acc r).2.skipped +
        (thoughtFold dry_run acc r).2.errors =
      acc.2.migrated + acc.2.skipped + acc.2.errors + 1 ∧
    (thoughtFold dry_run acc r).2.total = acc.2.total := by
  unfold thoughtFold
  cases thoughtOutcome acc.1.documents r <;> simp <;> omega

/-- Folding the tweet loop adds the row count to the counter sum and
keeps `total`. -/
theorem tweetLoop_stats (dry_run : Bool) (rows : List TweetRow) :
    ∀ acc : Db × MigStats,
      (rows.foldl (tweetFold dry_run) acc).2.migrated +
          (rows.foldl (tweetFold dry_run) acc).2.skipped +
          (rows.foldl (tweetFold dry_run) acc).2.errors =
        acc.2.migrated + acc.2.skipped + acc.2.errors + rows.length ∧
      (rows.foldl (tweetFold dry_run) acc).2.total = acc.2.total := by
  induction rows with
  | nil => intro acc; simp
  | cons r rs ih =>
    intro acc
    have hs := tweetFold_stats dry_run acc r
    have hrest := ih (tweetFold dry_run acc r)
    simp only [List.foldl_cons, List.length_cons]
    constructor
    · rw [hrest.1, hs.1]; omega
    · rw [hrest.2, hs.2]

/-- Folding the thought loop adds the row count to the counter sum and
keeps `total`. -/
theorem thoughtLoop_stats (dry_run : Bool) (rows : List ThoughtRow) :
    ∀ acc : Db × MigStats,
      (rows.foldl (thoughtFold dry_run) acc).2.migrated +
          (rows.foldl (thoughtFold dry_run) acc).2.skipped +
          (rows.foldl (thoughtFold dry_run) acc).2.errors =
        acc.2.migrated + acc.2.skipped + acc.2.errors + rows.length ∧
      (rows.foldl (thoughtFold dry_run) acc).2.total = acc.2.total := by
  induction rows with
  | nil => intro acc; simp
  | cons r rs ih =>
    intro acc
    have hs := thoughtFold_stats dry_run acc r
    have hrest := ih (thoughtFold dry_run acc r)
    simp only [List.foldl_cons, List.length_cons]
    constructor
    · rw [hrest.1, hs.1]; omega
    · rw [hrest.2, hs.2]

/-- C10: for every run of `migrate_tweets_to_documents` or
`migrate_thoughts_to_documents`, dry or not, the returned stats satisfy
`migrated + skipped + errors == total`: each fetched legacy row
increments exactly one of the three counters. -/
theorem migrate_stats_partition (dry_run : Bool) (db : Db) :
    ((migrate_tweets_to_documents dry_run db).2.migrated +
        (migrate_tweets_to_documents dry_run db).2.skipped +
        (migrate_tweets_to_documents dry_run db).2.errors =
      (migrate_tweets_to_documents dry_run db).2.total) ∧
    ((migrate_thoughts_to_documents dry_run db).2.migrated +
        (migrate_thoughts_to_documents dry_run db).2.skipped +
        (migrate_thoughts_to_documents dry_run db).2.errors =
      (migrate_thoughts_to_documents dry_run db).2.total) := by
  constructor
  · unfold migrate_tweets_to_documents
    have h := tweetLoop_stats dry_run db.tweets
      (db, { total := db.tweets.length, migrated := 0, skipped := 0, errors := 0 })
    rw [h.1, h.2]
    simp
  · unfold migrate_thoughts_to_documents
    have h := thoughtLoop_stats dry_run db.thoughts
      (db, { total := db.thoughts.length, migrated := 0, skipped := 0, errors := 0 })
    rw [h.1, h.2]
    simp

/-! ### Claim C6: caller metadata overrides computed chunk metadata -/

/-- Looking up the key just inserted yields the inserted value. -/
theorem dictGet_dictInsert_self (d : PyDict) (k : String) (v : PyVal) :
    dictGet (dictInsert d k v) k = some v := by
  induction d with
  | nil => simp [dictInsert, dictGet, List.find?]
  | cons kv rest ih =>
    cases kv with
    | mk k0 v0 =>
      by_cases h : k0 = k
      · simp [dictInsert, dictGet, h, List.find?]
      · simpa [dictInsert, dictGet, h, List.find?] using ih

/-- Inserting at a different key does not change a lookup. -/
theorem dictGet_dictInsert_other (d : PyDict) (k k2 : String) (v : PyVal)
    (h : ¬ k2 = k) :
    dictGet (dictInsert d k2 v) k = dictGet d k := by
  induction d with
  | nil => simp [dictInsert, dictGet, List.find?, h]
  | cons kv rest ih =>
    cases kv with
    | mk k0 v0 =>
      by_cases h0 : k0 = k2
      · subst h0
        have hk : ¬ k0 = k := h
        simp [dictInsert, dictGet, List.find?, hk]
      · by_cases h1 : k0 = k
        · subst h1
          simp [dictInsert, dictGet, List.find?, h0]
        · simpa [dictInsert, dictGet, List.find?, h0, h1] using ih

/-- Updating with a mapping that does not bind `k` does not change the
lookup at `k`. -/
theorem dictGet_dictUpdate_none (md : PyDict) (k : String) :
    ∀ d : PyDict, dictGet md k = none → dictGet (dictUpdate d md) k = dictGet d k := by
  induction md with
  | nil => intro d _; rfl
  | cons kv rest ih =>
    intro d h
    cases kv with
    | mk k0 v0 =>
      have h1 : ¬ k0 = k := by
        intro he
        simp [dictGet, List.find?, he] at h
      have h2 : dictGet rest k = none := by
        simpa [dictGet, List.find?, h1] using h
      show dictGet (dictUpdate (dictInsert d k0 v0) rest) k = dictGet d k
      rw [ih (dictInsert d k0 v0) h2, dictGet_dictInsert_other d k k0 v0 h1]

/-- Updating with a duplicate-free mapping that binds `k` to `v` makes the
lookup at `k` return `v`. -/
theorem dictGet_dictUpdate_some (md : PyDict) (k : String) (v : PyVal) :
    ∀ d : PyDict, (md.map Prod.fst).Nodup → dictGet md k = some v →
      dictGet (dictUpdate d md) k = some v := by
  induction md with
  | nil => intro d _ h; simp [dictGet, List.find?] at h
  | cons kv rest ih =>
    intro d hnd h
    cases kv with
    | mk k0 v0 =>
      show dictGet (dictUpdate (dictInsert d k0 v0) rest) k = some v
      by_cases hk : k0 = k
      · subst hk
        have hv : v0 = v := by
          simpa [dictGet, List.find?] using h
        have hnd2 : (k0 :: rest.map Prod.fst).Nodup := by simpa using hnd
        have hnotin : k0 ∉ rest.map Prod.fst := (List.nodup_cons.mp hnd2).1
        have hfind : List.find? (fun kv => decide (kv.1 = k0)) rest = none := by
          rw [List.find?_eq_none]
          intro kv hkv hd
          apply hnotin
          have hkv1 : kv.1 = k0 := of_decide_eq_true hd
          exact hkv1 ▸ List.mem_map_of_mem Prod.fst hkv
        have hrest : dictGet rest k0 = none := by
          simp [dictGet, hfind]
        rw [dictGet_dictUpdate_none rest k0 (dictInsert d k0 v0) hrest,
          dictGet_dictInsert_self, hv]
      · have h2 : dictGet rest k = some v := by
          simpa [dictGet, List.find?, hk] using h
        exact ih (dictInsert d k0 v0) (List.Nodup.of_cons (by simpa using hnd)) h2

/-- A chunk created by `_create_chunk` for a given document and caller
metadata. -/
def isChunkOf (document_id : String) (metadata : PyDict) (c : Chunk) : Prop :=
  ∃ i content, c = create_chunk document_id i content metadata

/-- Every chunk added by a sentence step is created by `_create_chunk`. -/
theorem sentence_step_chunks_from (cfg : ChunkerConfig) (document_id : String)
    (metadata : PyDict) (st : ChunkAcc) (s : String)
    (hinv : ∀ c ∈ st.chunks, isChunkOf document_id metadata c) :
    ∀ c ∈ (sentence_step cfg document_id metadata st s).chunks,
      isChunkOf document_id metadata c := by
  intro c hc
  unfold sentence_step at hc
  by_cases h1 : st.curTok + estimate_tokens s > cfg.chunk_size
  · simp only [h1, if_pos] at hc
    by_cases h2 : st.cur = []
    · simp only [h2, if_pos] at hc
      exact hinv c hc
    · simp only [h2, if_neg, not_false_iff] at hc
      rcases List.mem_append.mp hc with hl | hr
      · exact hinv c hl
      · exact ⟨st.idx, String.intercalate " " st.cur, List.mem_singleton.mp hr⟩
  · simp only [h1, if_neg, not_false_iff] at hc
    exact hinv c hc

/-- Every chunk added by a segment step is created by `_create_chunk`. -/
theorem segment_step_chunks_from (cfg : ChunkerConfig) (document_id : String)
    (metadata : PyDict) (st : ChunkAcc) (s : String)
    (hinv : ∀ c ∈ st.chunks, isChunkOf document_id metadata c) :
    ∀ c ∈ (segment_step cfg document_id metadata st s).chunks,
      isChunkOf document_id metadata c := by
  intro c hc
  unfold segment_step at hc
  by_cases h0 : 2 * estimate_tokens s > 3 * cfg.chunk_size
  · simp only [h0, if_pos] at hc
    revert c hc
    exact foldl_inv (sentence_step cfg document_id metadata)
      (fun a => ∀ c ∈ a.chunks, isChunkOf document_id metadata c)
      (split_into_sentences s) st
      (fun a x _ hp => sentence_step_chunks_from cfg document_id metadata a x hp)
      hinv
  · simp only [h0, if_neg, not_false_iff] at hc
    by_cases h1 : st.curTok + estimate_tokens s > cfg.chunk_size
    · simp only [h1, if_pos] at hc
      by_cases h2 : st.cur = []
      · simp only [h2, if_pos] at hc
        exact hinv c hc
      · simp only [h2, if_neg, not_false_iff] at hc
        rcases List.mem_append.mp hc with hl | hr
        · exact hinv c hl
        · exact ⟨st.idx, String.intercalate "\n\n" st.cur, List.mem_singleton.mp hr⟩
    · simp only [h1, if_neg, not_false_iff] at hc
      exact hinv c hc

/-- Every chunk returned by `chunk_document` is created by
`_create_chunk` with the caller's document id and metadata. -/
theorem chunk_document_chunks_from (cfg : ChunkerConfig) (document_id content : String)
    (metadata : PyDict) :
    ∀ c ∈ chunk_document cfg document_id content metadata,
      isChunkOf document_id metadata c := by
  intro c hc
  unfold chunk_document at hc
  by_cases h0 : ¬ should_chunk cfg content
  · simp only [h0, if_pos] at hc
    exact absurd hc (List.not_mem_nil c)
  · simp only [h0, if_neg, not_false_iff] at hc
    set final := (split_into_segments content).foldl
      (segment_step cfg document_id metadata)
      { chunks := [], cur := [], curTok := 0, idx := 0 } with hfinal
    have hall : ∀ c ∈ final.chunks, isChunkOf document_id metadata c := by
      rw [hfinal]
      exact foldl_inv (segment_step cfg document_id metadata)
        (fun a => ∀ c ∈ a.chunks, isChunkOf document_id metadata c)
        (split_into_segments content) _
        (fun a x _ hp => segment_step_chunks_from cfg document_id metadata a x hp)
        (by intro c hc; exact absurd hc (List.not_mem_nil c))
    by_cases h2 : final.cur = []
    · simp only [h2, if_pos] at hc
      exact hall c hc
    · simp only [h2, if_neg, not_false_iff] at hc
      rcases List.mem_append.mp hc with hl | hr
      · exact hall c hl
      · exact ⟨final.idx, String.intercalate "\n\n" final.cur, List.mem_singleton.mp hr⟩

/-- C6: chunk metadata is built computed-keys-first, then the caller
metadata is applied on top, so on a key collision the caller value
overrides the computed one; a computed key the caller does not bind keeps
its computed value (shown here for `chunk_index`). -/
theorem chunk_metadata_caller_overrides (cfg : ChunkerConfig)
    (document_id content : String) (metadata : PyDict)
    (hnd : (metadata.map Prod.fst).Nodup) (c : Chunk)
    (hc : c ∈ chunk_document cfg document_id content metadata) :
    (∀ k v, dictGet metadata k = some v → dictGet c.metadata k = some v) ∧
    (dictGet metadata "chunk_index" = none →
      dictGet c.metadata "chunk_index" = some (PyVal.vInt c.chunk_index)) := by
  obtain ⟨i, cont, rfl⟩ := chunk_document_chunks_from cfg document_id content metadata c hc
  constructor
  · intro k v hk
    exact dictGet_dictUpdate_some metadata k v _ hnd hk
  · intro hnone
    show dictGet (dictUpdate _ metadata) "chunk_index" = _
    rw [dictGet_dictUpdate_none metadata "chunk_index" _ hnone]
    simp [dictGet, List.find?, create_chunk]

/-- The first chunk produced in a small concrete run where the caller
metadata collides with the computed `chunk_index` key. -/
def collidingChunk : Chunk :=
  (chunk_document { chunk_size := 2, overlap_size := 0, min_chunk_size := 0 }
    "d" "aaaa bbbb cccc" [("chunk_index", PyVal.vStr "mine")]).headD
    (create_chunk "d" 0 "" [])

/-- Witness for C6: in the colliding run the caller value wins. -/
theorem chunk_metadata_caller_overrides_witness :
    dictGet collidingChunk.metadata "chunk_index" = some (PyVal.vStr "mine") :=
  (chunk_metadata_caller_overrides
    { chunk_size := 2, overlap_size := 0, min_chunk_size := 0 }
    "d" "aaaa bbbb cccc" [("chunk_index", PyVal.vStr "mine")]
    (by decide) collidingChunk (by decide)).1
    "chunk_index" (PyVal.vStr "mine") (by decide)

/-! ### Claim C3: per-record errors are counted and do not abort the batch -/

/-- C3: in both migration functions, a row whose processing raises
(malformed timestamp, missing field, bad JSON) is caught by the
per-record handler: at any point of the loop it contributes exactly one
to `errors`, leaves the store untouched, and the loop continues over the
remaining rows exactly as it would have — so no single bad record ever
aborts the batch (`migrate_tweets_to_documents dry_run db` is
`db.tweets.foldl (tweetFold dry_run) (db, init)`, and likewise for
thoughts; both are total functions that always return their stats). -/
theorem migration_per_record_error_isolated (dry_run : Bool) (acc : Db × MigStats)
    (r : TweetRow) (rs : List TweetRow) (tr : ThoughtRow) (trs : List ThoughtRow)
    (db : Db) :
    (tweetOutcome acc.1.documents r = RowOutcome.err →
      (r :: rs).foldl (tweetFold dry_run) acc =
        rs.foldl (tweetFold dry_run) (acc.1, { acc.2 with errors := acc.2.errors + 1 })) ∧
    (thoughtOutcome acc.1.documents tr = RowOutcome.err →
      (tr :: trs).foldl (thoughtFold dry_run) acc =
        trs.foldl (thoughtFold dry_run) (acc.1, { acc.2 with errors := acc.2.errors + 1 })) ∧
    (db.tweets = r :: rs → tweetOutcome db.documents r = RowOutcome.err →
      migrate_tweets_to_documents dry_run db =
        rs.foldl (tweetFold dry_run)
          (db, { total := db.tweets.length, migrated := 0, skipped := 0, errors := 1 })) ∧
    (db.thoughts = tr :: trs → thoughtOutcome db.documents tr = RowOutcome.err →
      migrate_thoughts_to_documents dry_run db =
        trs.foldl (thoughtFold dry_run)
          (db, { total := db.thoughts.length, migrated := 0, skipped := 0, errors := 1 })) := by
  refine ⟨?_, ?_, ?_, ?_⟩
  · intro he
    rw [List.foldl_cons]
    have hstep : tweetFold dry_run acc r =
        (acc.1, { acc.2 with errors := acc.2.errors + 1 }) := by
      unfold tweetFold
      rw [he]
    rw [hstep]
  · intro he
    rw [List.foldl_cons]
    have hstep : thoughtFold dry_run acc tr =
        (acc.1, { acc.2 with errors := acc.2.errors + 1 }) := by
      unfold thoughtFold
      rw [he]
    rw [hstep]
  · intro ht he
    unfold migrate_tweets_to_documents
    rw [ht, List.foldl_cons]
    have hstep : tweetFold dry_run
        (db, { total := (r :: rs).length, migrated := 0, skipped := 0, errors := 0 }) r =
        (db, { total := (r :: rs).length, migrated := 0, skipped := 0, errors := 1 }) := by
      unfold tweetFold
      rw [he]
    rw [hstep]
  · intro ht he
    unfold migrate_thoughts_to_documents
    rw [ht, List.foldl_cons]
    have hstep : thoughtFold dry_run
        (db, { total := (tr :: trs).length, migrated := 0, skipped := 0, errors := 0 }) tr =
        (db, { total := (tr :: trs).length, migrated := 0, skipped := 0, errors := 1 }) := by
      unfold thoughtFold
      rw [he]
    rw [hstep]

/-- A tweet row with an unparseable timestamp. -/
def badTsTweet : TweetRow :=
  { tweet_id := some "1", user_id := some "alice", created_at := some "not-a-date",
    full_text := some "hello", reply_to_tweet_id := none, reply_to_user := none,
    retweet_count := some 0, favorite_count := some 0, is_retweet := some 0,
    is_reply := some 0, entities := none }

/-- A well-formed tweet row. -/
def goodTweet : TweetRow :=
  { tweet_id := some "2", user_id := some "alice",
    created_at := some "2020-01-01T00:00:00",
    full_text := some "world", reply_to_tweet_id := none, reply_to_user := none,
    retweet_count := some 0, favorite_count := some 0, is_retweet := some 0,
    is_reply := some 0, entities := none }

/-- A thought row with a missing (NULL) content field. -/
def badThought : ThoughtRow :=
  { id := 1, content := none, tags := none, category := none,
    created_at := some "2021-05-05", updated_at := none }

/-- A well-formed thought row. -/
def goodThought : ThoughtRow :=
  { id := 2, content := some "idea", tags := none, category := none,
    created_at := some "2021-05-05", updated_at := none }

/-- A store with one malformed and one well-formed row in each legacy
table. -/
def mixedDb : Db :=
  { tweets := [badTsTweet, goodTweet], thoughts := [badThought, goodThought],
    documents := [] }

/-- Witness for C3: the malformed leading rows are counted as errors and
the loop proceeds to the remaining rows. -/
theorem migration_per_record_error_isolated_witness :
    migrate_tweets_to_documents false mixedDb =
      [goodTweet].foldl (tweetFold false)
        (mixedDb, { total := mixedDb.tweets.length, migrated := 0, skipped := 0, errors := 1 }) ∧
    migrate_thoughts_to_documents false mixedDb =
      [goodThought].foldl (thoughtFold false)
        (mixedDb, { total := mixedDb.thoughts.length, migrated := 0, skipped := 0, errors := 1 }) :=
  ⟨(migration_per_record_error_isolated false (mixedDb,
      { total := mixedDb.tweets.length, migrated := 0, skipped := 0, errors := 0 })
      badTsTweet [goodTweet] badThought [goodThought] mixedDb).2.2.1 rfl (by decide),
   (migration_per_record_error_isolated false (mixedDb,
      { total := mixedDb.tweets.length, migrated := 0, skipped := 0, errors := 0 })
      badTsTweet [goodTweet] badThought [goodThought] mixedDb).2.2.2 rfl (by decide)⟩

/-! ### Claim C1: chunk coverage.  Supporting lemmas about non-whitespace
content surviving the splitters. -/

/-- Dropping leading whitespace preserves the presence of a
non-whitespace character. -/
theorem any_dropWhile_ws (l : List Char)
    (h : l.any (fun c => !isPySpace c) = true) :
    (l.dropWhile isPySpace).any (fun c => !isPySpace c) = true := by
  induction l with
  | nil => simpa using h
  | cons c t ih =>
    by_cases hc : isPySpace c
    · rw [List.dropWhile_cons_of_pos (by simpa using hc)]
      apply ih
      simpa [hc] using h
    · rwa [List.dropWhile_cons_of_neg (by simpa using hc)]

/-- Stripping preserves the presence of a non-whitespace character. -/
theorem any_pyStripL (l : List Char)
    (h : l.any (fun c => !isPySpace c) = true) :
    (pyStripL l).any (fun c => !isPySpace c) = true := by
  unfold pyStripL
  rw [List.any_reverse]
  apply any_dropWhile_ws
  rw [List.any_reverse]
  exact any_dropWhile_ws l h

/-- A list holding a non-whitespace character strips to a non-empty
list. -/
theorem pyStripL_ne_nil (l : List Char)
    (h : l.any (fun c => !isPySpace c) = true) : ¬ pyStripL l = [] := by
  intro he
  have := any_pyStripL l h
  rw [he] at this
  simp at this

/-- A non-empty `dropWhile` result starts with a character failing the
predicate. -/
theorem dropWhile_head_not (p : Char → Bool) (l : List Char)
    (h : ¬ l.dropWhile p = []) :
    ∃ a t, l.dropWhile p = a :: t ∧ p a = false := by
  induction l with
  | nil => simp at h
  | cons c t ih =>
    by_cases hc : p c
    · rw [List.dropWhile_cons_of_pos hc] at h ⊢
      exact ih h
    · rw [List.dropWhile_cons_of_neg (by simpa using hc)]
      exact ⟨c, t, rfl, by simpa using hc⟩

/-- A non-empty strip result holds a non-whitespace character. -/
theorem any_of_pyStripL_ne_nil (l : List Char) (h : ¬ pyStripL l = []) :
    (pyStripL l).any (fun c => !isPySpace c) = true := by
  unfold pyStripL at h ⊢
  have hne : ¬ ((l.dropWhile isPySpace).reverse.dropWhile isPySpace) = [] := by
    intro he
    rw [he] at h
    simp at h
  obtain ⟨a, t, heq, ha⟩ := dropWhile_head_not isPySpace (l.dropWhile isPySpace).reverse hne
  rw [heq, List.any_reverse, List.any_cons, ha]
  simp

/-- Every member of a strip-and-filter result holds a non-whitespace
character. -/
theorem stripFilter_mem_any (ps : List (List Char)) (s : String)
    (hs : s ∈ stripFilter ps) : s.data.any (fun c => !isPySpace c) = true := by
  unfold stripFilter at hs
  obtain ⟨p, hp, rfl⟩ := List.mem_map.mp hs
  have hfilt := List.mem_filter.mp hp
  obtain ⟨q, _, rfl⟩ := List.mem_map.mp hfilt.1
  exact any_of_pyStripL_ne_nil q (by simpa using hfilt.2)

/-- A piece holding a non-whitespace character survives strip-and-filter,
so the result is non-empty. -/
theorem stripFilter_ne_nil (ps : List (List Char)) (p : List Char)
    (hp : p ∈ ps) (hany : p.any (fun c => !isPySpace c) = true) :
    ¬ stripFilter ps = [] := by
  intro he
  have hmem : String.mk (pyStripL p) ∈ stripFilter ps := by
    unfold stripFilter
    refine List.mem_map_of_mem String.mk (List.mem_filter.mpr ⟨?_, ?_⟩)
    · exact List.mem_map_of_mem pyStripL hp
    · simpa using pyStripL_ne_nil p hany
  rw [he] at hmem
  exact List.not_mem_nil _ hmem

/-- Characters within the first `k` positions, `k` within the leading
whitespace run, are whitespace. -/
theorem mem_take_le_takeWhile (p : Char → Bool) (l : List Char) (k : Nat)
    (hk : k ≤ (l.takeWhile p).length) :
    ∀ x ∈ l.take k, p x = true := by
  induction l generalizing k with
  | nil => intro x hx; simp at hx
  | cons c t ih =>
    cases k with
    | zero => intro x hx; simp at hx
    | succ k =>
      by_cases hc : p c
      · rw [List.takeWhile_cons_of_pos hc] at hk
        intro x hx
        rcases List.mem_cons.mp (by simpa using hx) with hxc | hxt
        · exact hxc ▸ hc
        · exact ih k (Nat.le_of_succ_le_succ hk) x hxt
      · rw [List.takeWhile_cons_of_neg (by simpa using hc)] at hk
        simp at hk
  
/-- Any non-whitespace character survives dropping a whitespace
prefix. -/
theorem any_drop_of_take_ws (l : List Char) (k : Nat)
    (hws : ∀ x ∈ l.take k, isPySpace x = true)
    (h : l.any (fun c => !isPySpace c) = true) :
    (l.drop k).any (fun c => !isPySpace c) = true := by
  have hsplit : l = l.take k ++ l.drop k := (List.take_append_drop k l).symm
  rw [hsplit, List.any_append] at h
  have htake : (l.take k).any (fun c => !isPySpace c) = false := by
    rw [List.any_eq_false]
    intro x hx
    simp [hws x hx]
  rw [htake] at h
  simpa using h

/-- The paragraph splitter keeps any non-whitespace character in one of
its pieces (the separator consumes only whitespace). -/
theorem paraSplitF_any (fuel : Nat) :
    ∀ l : List Char, l.length ≤ fuel → l.any (fun c => !isPySpace c) = true →
      ∃ p ∈ paraSplitF fuel l, p.any (fun c => !isPySpace c) = true := by
  induction fuel with
  | zero =>
    intro l hl h
    rw [List.length_eq_zero.mp (Nat.le_zero.mp hl)] at h
    simp at h
  | succ fuel ih =>
    intro l hl h
    cases l with
    | nil => simp at h
    | cons c t =>
      by_cases hm : paraMatchAt c t
      · have hcnl : c = '\n' := by
          have hm2 := hm
          unfold paraMatchAt at hm2
          obtain ⟨h1, -⟩ : c = '\n' ∧ (t.takeWhile isPySpace).contains '\n' = true := by
            simpa using hm2
          exact h1
        have hcw : isPySpace c = true := by rw [hcnl]; rfl
        have ht : t.any (fun c => !isPySpace c) = true := by
          rw [List.any_cons, hcw] at h
          simpa using h
        have hklen : paraMatchLen t ≤ (t.takeWhile isPySpace).length :=
          Nat.sub_le _ _
        have hdrop : (t.drop (paraMatchLen t)).any (fun c => !isPySpace c) = true :=
          any_drop_of_take_ws t (paraMatchLen t)
            (mem_take_le_takeWhile isPySpace t (paraMatchLen t) hklen) ht
        have hlen : (t.drop (paraMatchLen t)).length ≤ fuel := by
          rw [List.length_drop]
          simp only [List.length_cons] at hl
          omega
        obtain ⟨p, hp, hpany⟩ := ih (t.drop (paraMatchLen t)) hlen hdrop
        refine ⟨p, ?_, hpany⟩
        show p ∈ (if paraMatchAt c t then
            [] :: paraSplitF fuel (t.drop (paraMatchLen t))
          else consHead c (paraSplitF fuel t))
        rw [if_pos hm]
        exact List.mem_cons_of_mem [] hp
      · have hres : paraSplitF (fuel + 1) (c :: t) = consHead c (paraSplitF fuel t) := by
          show (if paraMatchAt c t then
              [] :: paraSplitF fuel (t.drop (paraMatchLen t))
            else consHead c (paraSplitF fuel t)) = _
          rw [if_neg hm]
        by_cases hc : isPySpace c
        · have ht : t.any (fun c => !isPySpace c) = true := by
            rw [List.any_cons, hc] at h
            simpa using h
          have hlen : t.length ≤ fuel := by
            simp only [List.length_cons] at hl
            omega
          obtain ⟨p, hp, hpany⟩ := ih t hlen ht
          rw [hres]
          cases hq : paraSplitF fuel t with
          | nil => rw [hq] at hp; exact absurd hp (List.not_mem_nil p)
          | cons q qs =>
            rw [hq] at hp
            rcases List.mem_cons.mp hp with rfl | hqs
            · exact ⟨c :: p, List.mem_cons_self _ _, by
                rw [List.any_cons, hpany]; simp⟩
            · exact ⟨p, List.mem_cons_of_mem _ hqs, hpany⟩
        · rw [hres]
          cases hq : paraSplitF fuel t with
          | nil => exact ⟨[c], List.mem_cons_self _ _, by simp [hc]⟩
          | cons q qs =>
            exact ⟨c :: q, List.mem_cons_self _ _, by
              rw [List.any_cons]
              simp [hc]⟩

/-- The sentence splitter keeps any non-whitespace character in one of
its pieces. -/
theorem sentSplitF_any (fuel : Nat) :
    ∀ (prev : Option Char) (l : List Char), l.length ≤ fuel →
      l.any (fun c => !isPySpace c) = true →
      ∃ p ∈ sentSplitF fuel prev l, p.any (fun c => !isPySpace c) = true := by
  induction fuel with
  | zero =>
    intro prev l hl h
    rw [List.length_eq_zero.mp (Nat.le_zero.mp hl)] at h
    simp at h
  | succ fuel ih =>
    intro prev l hl h
    cases l with
    | nil => simp at h
    | cons c t =>
      by_cases hm : (isPySpace c && isSentEnd prev) = true
      · obtain ⟨hcw, -⟩ : isPySpace c = true ∧ isSentEnd prev = true := by simpa using hm
        have ht : t.any (fun c => !isPySpace c) = true := by
          rw [List.any_cons, hcw] at h
          simpa using h
        have hdrop := any_dropWhile_ws t ht
        have hlen : (t.dropWhile isPySpace).length ≤ fuel := by
          have := (List.dropWhile_sublist (l := t) (p := isPySpace)).length_le
          simp only [List.length_cons] at hl
          omega
        obtain ⟨p, hp, hpany⟩ := ih none (t.dropWhile isPySpace) hlen hdrop
        refine ⟨p, ?_, hpany⟩
        show p ∈ (if isPySpace c && isSentEnd prev then
            [] :: sentSplitF fuel none (t.dropWhile isPySpace)
          else consHead c (sentSplitF fuel (some c) t))
        rw [if_pos hm]
        exact List.mem_cons_of_mem [] hp
      · have hres : sentSplitF (fuel + 1) prev (c :: t) =
            consHead c (sentSplitF fuel (some c) t) := by
          show (if isPySpace c && isSentEnd prev then
              [] :: sentSplitF fuel none (t.dropWhile isPySpace)
            else consHead c (sentSplitF fuel (some c) t)) = _
          rw [if_neg hm]
        by_cases hc : isPySpace c
        · have ht : t.any (fun c => !isPySpace c) = true := by
            rw [List.any_cons, hc] at h
            simpa using h
          have hlen : t.length ≤ fuel := by
            simp only [List.length_cons] at hl
            omega
          obtain ⟨p, hp, hpany⟩ := ih (some c) t hlen ht
          rw [hres]
          cases hq : sentSplitF fuel (some c) t with
          | nil => rw [hq] at hp; exact absurd hp (List.not_mem_nil p)
          | cons q qs =>
            rw [hq] at hp
            rcases List.mem_cons.mp hp with rfl | hqs
            · exact ⟨c :: p, List.mem_cons_self _ _, by
                rw [List.any_cons, hpany]; simp⟩
            · exact ⟨p, List.mem_cons_of_mem _ hqs, hpany⟩
        · rw [hres]
          cases hq : sentSplitF fuel (some c) t with
          | nil => exact ⟨[c], List.mem_cons_self _ _, by simp [hc]⟩
          | cons q qs =>
            exact ⟨c :: q, List.mem_cons_self _ _, by
              rw [List.any_cons]
              simp [hc]⟩

/-- A document holding a non-whitespace character yields at least one
paragraph segment. -/
theorem split_into_segments_ne_nil (content : String)
    (h : content.data.any (fun c => !isPySpace c) = true) :
    ¬ split_into_segments content = [] := by
  obtain ⟨p, hp, hpany⟩ :=
    paraSplitF_any content.data.length content.data (Nat.le_refl _) h
  exact stripFilter_ne_nil _ p hp hpany

/-- Every paragraph segment holds a non-whitespace character. -/
theorem split_into_segments_mem_any (content : String) (s : String)
    (hs : s ∈ split_into_segments content) :
    s.data.any (fun c => !isPySpace c) = true :=
  stripFilter_mem_any _ s hs

/-- A segment holding a non-whitespace character yields at least one
sentence. -/
theorem split_into_sentences_ne_nil (text : String)
    (h : text.data.any (fun c => !isPySpace c) = true) :
    ¬ split_into_sentences text = [] := by
  obtain ⟨p, hp, hpany⟩ :=
    sentSplitF_any text.data.length none text.data (Nat.le_refl _) h
  exact stripFilter_ne_nil _ p hp hpany

/-- The chunk-index invariant of the packing loop: the next index equals
the number of chunks saved so far, and the saved indices are exactly
`0..n-1` in order. -/
def idxOK (st : ChunkAcc) : Prop :=
  st.idx = st.chunks.length ∧
  st.chunks.map Chunk.chunk_index = List.range st.chunks.length

/-- A sentence step either keeps the saved chunks or closes the current
chunk at the running index. -/
theorem sentence_step_shape (cfg : ChunkerConfig) (document_id : String)
    (metadata : PyDict) (st : ChunkAcc) (s : String) :
    ((sentence_step cfg document_id metadata st s).chunks = st.chunks ∧
      (sentence_step cfg document_id metadata st s).idx = st.idx) ∨
    ((sentence_step cfg document_id metadata st s).chunks =
        st.chunks ++ [create_chunk document_id st.idx (String.intercalate " " st.cur) metadata] ∧
      (sentence_step cfg document_id metadata st s).idx = st.idx + 1) := by
  unfold sentence_step
  by_cases h1 : st.curTok + estimate_tokens s > cfg.chunk_size
  · by_cases h2 : st.cur = []
    · left; simp [h1, h2]
    · right; simp [h1, h2]
  · left; simp [h1]

/-- A segment step in its direct branches either keeps the saved chunks
or closes the current chunk at the running index. -/
theorem segment_step_shape (cfg : ChunkerConfig) (document_id : String)
    (metadata : PyDict) (st : ChunkAcc) (s : String)
    (hbig : ¬ 2 * estimate_tokens s > 3 * cfg.chunk_size) :
    ((segment_step cfg document_id metadata st s).chunks = st.chunks ∧
      (segment_step cfg document_id metadata st s).idx = st.idx) ∨
    ((segment_step cfg document_id metadata st s).chunks =
        st.chunks ++ [create_chunk document_id st.idx (String.intercalate "\n\n" st.cur) metadata] ∧
      (segment_step cfg document_id metadata st s).idx = st.idx + 1) := by
  unfold segment_step
  by_cases h1 : st.curTok + estimate_tokens s > cfg.chunk_size
  · by_cases h2 : st.cur = []
    · left; simp [hbig, h1, h2]
    · right; simp [hbig, h1, h2]
  · left; simp [hbig, h1]

/-- Closing a chunk at the running index preserves the chunk-index
invariant. -/
theorem idxOK_append (st : ChunkAcc) (c : Chunk) (h : idxOK st)
    (hc : c.chunk_index = st.idx) :
    st.idx + 1 = (st.chunks ++ [c]).length ∧
    (st.chunks ++ [c]).map Chunk.chunk_index = List.range (st.chunks ++ [c]).length := by
  obtain ⟨hlen, hmap⟩ := h
  constructor
  · simp [hlen]
  · rw [List.map_append, List.length_append]
    simp only [List.map_cons, List.map_nil, List.length_cons, List.length_nil]
    rw [hmap, hc, hlen]
    rw [List.range_succ]

/-- Sentence steps preserve the chunk-index invariant. -/
theorem sentence_step_idxOK (cfg : ChunkerConfig) (document_id : String)
    (metadata : PyDict) (st : ChunkAcc) (s : String) (h : idxOK st) :
    idxOK (sentence_step cfg document_id metadata st s) := by
  rcases sentence_step_shape cfg document_id metadata st s with ⟨hc, hi⟩ | ⟨hc, hi⟩
  · exact ⟨by rw [hc, hi]; exact h.1, by rw [hc]; exact h.2⟩
  · refine ⟨?_, ?_⟩
    · rw [hc, hi]
      exact (idxOK_append st _ h rfl).1
    · rw [hc]
      exact (idxOK_append st _ h rfl).2

/-- Segment steps preserve the chunk-index invariant. -/
theorem segment_step_idxOK (cfg : ChunkerConfig) (document_id : String)
    (metadata : PyDict) (st : ChunkAcc) (s : String) (h : idxOK st) :
    idxOK (segment_step cfg document_id metadata st s) := by
  by_cases hbig : 2 * estimate_tokens s > 3 * cfg.chunk_size
  · have hstep : segment_step cfg document_id metadata st s =
        (split_into_sentences s).foldl (sentence_step cfg document_id metadata) st := by
      unfold segment_step
      simp [hbig]
    rw [hstep]
    exact foldl_inv (sentence_step cfg document_id metadata) idxOK
      (split_into_sentences s) st
      (fun a x _ hp => sentence_step_idxOK cfg document_id metadata a x hp) h
  · rcases segment_step_shape cfg document_id metadata st s hbig with ⟨hc, hi⟩ | ⟨hc, hi⟩
    · exact ⟨by rw [hc, hi]; exact h.1, by rw [hc]; exact h.2⟩
    · refine ⟨?_, ?_⟩
      · rw [hc, hi]
        exact (idxOK_append st _ h rfl).1
      · rw [hc]
        exact (idxOK_append st _ h rfl).2

/-- After any sentence step the current chunk content is non-empty. -/
theorem sentence_step_cur_ne (cfg : ChunkerConfig) (document_id : String)
    (metadata : PyDict) (st : ChunkAcc) (s : String) :
    ¬ (sentence_step cfg document_id metadata st s).cur = [] := by
  unfold sentence_step
  by_cases h1 : st.curTok + estimate_tokens s > cfg.chunk_size
  · by_cases h3 : get_overlap_content cfg st.cur = ""
    · simp [h1, h3]
    · simp [h1, h3]
  · simp [h1]

/-- After a segment step on a segment holding a non-whitespace character,
the current chunk content is non-empty. -/
theorem segment_step_cur_ne (cfg : ChunkerConfig) (document_id : String)
    (metadata : PyDict) (st : ChunkAcc) (s : String)
    (hs : s.data.any (fun c => !isPySpace c) = true) :
    ¬ (segment_step cfg document_id metadata st s).cur = [] := by
  by_cases hbig : 2 * estimate_tokens s > 3 * cfg.chunk_size
  · have hstep : segment_step cfg document_id metadata st s =
        (split_into_sentences s).foldl (sentence_step cfg document_id metadata) st := by
      unfold segment_step
      simp [hbig]
    rw [hstep]
    exact foldl_last (sentence_step cfg document_id metadata)
      (fun a => ¬ a.cur = []) (split_into_sentences s) st
      (fun a x _ => sentence_step_cur_ne cfg document_id metadata a x)
      (split_into_sentences_ne_nil s hs)
  · unfold segment_step
    by_cases h1 : st.curTok + estimate_tokens s > cfg.chunk_size
    · by_cases h3 : get_overlap_content cfg st.cur = ""
      · simp [hbig, h1, h3]
      · simp [hbig, h1, h3]
    · simp [hbig, h1]

/-- C1 (amended): for a document where `should_chunk` is true,
`chunk_document` returns a sequence whose `chunk_index` values are
exactly `0..n-1` in order with no gaps or duplicates, and the sequence is
non-empty provided the content has at least one non-whitespace character
(an all-whitespace oversized document yields the empty sequence, the
counterexample to the unamended claim). -/
theorem chunk_document_coverage (cfg : ChunkerConfig) (document_id content : String)
    (metadata : PyDict)
    (hsc : should_chunk cfg content = true)
    (hws : content.data.any (fun c => !isPySpace c) = true) :
    ¬ chunk_document cfg document_id content metadata = [] ∧
    (chunk_document cfg document_id content metadata).map Chunk.chunk_index =
      List.range (chunk_document cfg document_id content metadata).length := by
  have hnotnot : ¬ ¬ should_chunk cfg content = true := by simp [hsc]
  have hbody : chunk_document cfg document_id content metadata =
      (let segments := split_into_segments content
       let final := segments.foldl (segment_step cfg document_id metadata)
         { chunks := [], cur := [], curTok := 0, idx := 0 }
       if final.cur = [] then final.chunks
       else final.chunks ++
         [create_chunk document_id final.idx
           (String.intercalate "\n\n" final.cur) metadata]) := by
    unfold chunk_document
    rw [if_neg hnotnot]
  set final := (split_into_segments content).foldl
    (segment_step cfg document_id metadata)
    { chunks := [], cur := [], curTok := 0, idx := 0 } with hfinal
  have hinv : idxOK final := by
    rw [hfinal]
    exact foldl_inv (segment_step cfg document_id metadata) idxOK
      (split_into_segments content) _
      (fun a x _ hp => segment_step_idxOK cfg document_id metadata a x hp)
      ⟨rfl, rfl⟩
  have hcur : ¬ final.cur = [] := by
    rw [hfinal]
    exact foldl_last (segment_step cfg document_id metadata)
      (fun a => ¬ a.cur = []) (split_into_segments content) _
      (fun a x hx => segment_step_cur_ne cfg document_id metadata a x
        (split_into_segments_mem_any content x hx))
      (split_into_segments_ne_nil content hws)
  rw [hbody]
  simp only [← hfinal, if_neg hcur]
  constructor
  · simp
  · have := idxOK_append final
      (create_chunk document_id final.idx (String.intercalate "\n\n" final.cur) metadata)
      hinv rfl
    exact this.2

/-- Witness for C1 (amended): a small oversized document is chunked into
chunks indexed `0..n-1`. -/
theorem chunk_document_coverage_witness :
    ¬ chunk_document { chunk_size := 2, overlap_size := 0, min_chunk_size := 0 }
        "doc" "aaaa bbbb cccc" [] = [] ∧
    (chunk_document { chunk_size := 2, overlap_size := 0, min_chunk_size := 0 }
        "doc" "aaaa bbbb cccc" []).map Chunk.chunk_index =
      List.range (chunk_document { chunk_size := 2, overlap_size := 0, min_chunk_size := 0 }
        "doc" "aaaa bbbb cccc" []).length :=
  chunk_document_coverage { chunk_size := 2, overlap_size := 0, min_chunk_size := 0 }
    "doc" "aaaa bbbb cccc" [] (by decide) (by decide)

/-- Every piece of the paragraph splitter of an all-whitespace list is
all-whitespace. -/
theorem paraSplitF_all_ws (fuel : Nat) :
    ∀ l : List Char, l.all isPySpace = true →
      ∀ p ∈ paraSplitF fuel l, p.all isPySpace = true := by
  induction fuel with
  | zero =>
    intro l _ p hp
    cases l with
    | nil =>
      rcases List.mem_singleton.mp hp with rfl
      rfl
    | cons c t =>
      rcases List.mem_singleton.mp hp with rfl
      rfl
  | succ fuel ih =>
    intro l hl p hp
    cases l with
    | nil =>
      rcases List.mem_singleton.mp hp with rfl
      rfl
    | cons c t =>
      have hc : isPySpace c = true := by
        rw [List.all_cons] at hl
        exact (Bool.and_eq_true_iff.mp hl).1
      have ht : t.all isPySpace = true := by
        rw [List.all_cons] at hl
        exact (Bool.and_eq_true_iff.mp hl).2
      by_cases hm : paraMatchAt c t
      · have hp2 : p ∈ ([] : List Char) :: paraSplitF fuel (t.drop (paraMatchLen t)) := by
          have : paraSplitF (fuel + 1) (c :: t) =
              [] :: paraSplitF fuel (t.drop (paraMatchLen t)) := by
            show (if paraMatchAt c t then
                [] :: paraSplitF fuel (t.drop (paraMatchLen t))
              else consHead c (paraSplitF fuel t)) = _
            rw [if_pos hm]
          rwa [this] at hp
        rcases List.mem_cons.mp hp2 with rfl | hp3
        · rfl
        · have hdrop : (t.drop (paraMatchLen t)).all isPySpace = true := by
            rw [List.all_eq_true] at ht ⊢
            intro x hx
            exact ht x (List.mem_of_mem_drop hx)
          exact ih (t.drop (paraMatchLen t)) hdrop p hp3
      · have hres : paraSplitF (fuel + 1) (c :: t) = consHead c (paraSplitF fuel t) := by
          show (if paraMatchAt c t then
              [] :: paraSplitF fuel (t.drop (paraMatchLen t))
            else consHead c (paraSplitF fuel t)) = _
          rw [if_neg hm]
        rw [hres] at hp
        cases hq : paraSplitF fuel t with
        | nil =>
          rw [hq] at hp
          rcases List.mem_singleton.mp (by simpa [consHead] using hp) with rfl
          simp [hc]
        | cons q qs =>
          rw [hq] at hp
          rcases List.mem_cons.mp (by simpa [consHead] using hp) with rfl | hp3
          · rw [List.all_cons, hc]
            have : q ∈ paraSplitF fuel t := by rw [hq]; exact List.mem_cons_self q qs
            simpa using ih t ht q this
          · have : p ∈ paraSplitF fuel t := by
              rw [hq]; exact List.mem_cons_of_mem q hp3
            exact ih t ht p this

/-- An all-whitespace list strips to the empty list. -/
theorem pyStripL_all_ws (l : List Char) (h : l.all isPySpace = true) :
    pyStripL l = [] := by
  unfold pyStripL
  have h1 : l.dropWhile isPySpace = [] := by
    rw [List.dropWhile_eq_nil_iff]
    intro x hx
    exact (List.all_eq_true.mp h) x hx
  rw [h1]
  rfl

/-- Strip-and-filter of all-whitespace pieces is empty. -/
theorem stripFilter_all_ws (ps : List (List Char))
    (h : ∀ p ∈ ps, p.all isPySpace = true) : stripFilter ps = [] := by
  unfold stripFilter
  rw [List.map_eq_nil_iff]
  rw [List.filter_eq_nil_iff]
  intro p hp
  obtain ⟨q, hq, rfl⟩ := List.mem_map.mp hp
  simp [pyStripL_all_ws q (h q hq)]

/-- An all-whitespace document yields no paragraph segments. -/
theorem split_into_segments_all_ws (content : String)
    (h : content.data.all isPySpace = true) :
    split_into_segments content = [] := by
  unfold split_into_segments paraSplit
  exact stripFilter_all_ws _
    (paraSplitF_all_ws content.data.length content.data h)

/-- Counterexample to C1 as stated: a 3204-space document passes the
`should_chunk` threshold under the default configuration, yet
`chunk_document` returns the empty sequence (its whitespace-only content
produces no segments). -/
theorem chunk_document_coverage_fails :
    should_chunk defaultChunkerConfig (String.mk (List.replicate 3204 ' ')) = true ∧
    chunk_document defaultChunkerConfig "doc" (String.mk (List.replicate 3204 ' ')) [] = [] := by
  have hlen : (String.mk (List.replicate 3204 ' ')).length = 3204 := by
    show (List.replicate 3204 ' ').length = 3204
    rw [List.length_replicate]
  have hsc : should_chunk defaultChunkerConfig (String.mk (List.replicate 3204 ' ')) = true := by
    unfold should_chunk estimate_tokens defaultChunkerConfig
    rw [hlen]
    rfl
  refine ⟨hsc, ?_⟩
  have hseg : split_into_segments (String.mk (List.replicate 3204 ' ')) = [] := by
    apply split_into_segments_all_ws
    show (List.replicate 3204 ' ').all isPySpace = true
    rw [List.all_eq_true]
    intro x hx
    rw [List.eq_of_mem_replicate hx]
    rfl
  unfold chunk_document
  rw [if_neg (not_not_intro hsc)]
  rw [hseg]
  rfl

/-! ### Claim C4: idempotence of `run_full_migration` -/

/-- A document id being present in the documents table, exactly as the
dedup probe tests it. -/
def idPresent (documents : List Doc) (i : String) : Prop :=
  documents.any (fun d => d.id = i) = true

/-- Presence as existence of a row. -/
theorem idPresent_iff (documents : List Doc) (i : String) :
    idPresent documents i ↔ ∃ x ∈ documents, x.id = i := by
  unfold idPresent
  simp

/-- Upserting keeps every present id present. -/
theorem insert_document_preserves_id (documents : List Doc) (d : Doc) (i : String)
    (h : idPresent documents i) : idPresent (insert_document documents d) i := by
  rcases (idPresent_iff documents i).mp h with ⟨x, hx, hxi⟩
  by_cases hid : i = d.id
  · refine (idPresent_iff _ i).mpr ⟨{ d with created_at := some (d.created_at.getD nowMarker) }, ?_, hid.symm⟩
    exact List.mem_append_right _ (List.mem_singleton.mpr rfl)
  · refine (idPresent_iff _ i).mpr ⟨x, ?_, hxi⟩
    apply List.mem_append_left
    apply List.mem_filter.mpr
    refine ⟨hx, ?_⟩
    simp only [decide_eq_true_iff]
    intro he
    exact hid (hxi ▸ he ▸ rfl)

/-- Upserting makes the inserted id present. -/
theorem insert_document_adds_id (documents : List Doc) (d : Doc) :
    idPresent (insert_document documents d) d.id :=
  (idPresent_iff _ _).mpr
    ⟨{ d with created_at := some (d.created_at.getD nowMarker) },
     List.mem_append_right _ (List.mem_singleton.mpr rfl), rfl⟩

/-- Tweet steps keep every present id present. -/
theorem tweetFold_preserves_id (dry_run : Bool) (acc : Db × MigStats) (r : TweetRow)
    (i : String) (h : idPresent acc.1.documents i) :
    idPresent (tweetFold dry_run acc r).1.documents i := by
  unfold tweetFold
  cases tweetOutcome acc.1.documents r with
  | err => exact h
  | skipped => exact h
  | migrated d =>
    by_cases hd : dry_run
    · simpa [hd] using h
    · simpa [hd] using insert_document_preserves_id acc.1.documents d i h
  
/-- Thought steps keep every present id present. -/
theorem thoughtFold_preserves_id (dry_run : Bool) (acc : Db × MigStats) (r : ThoughtRow)
    (i : String) (h : idPresent acc.1.documents i) :
    idPresent (thoughtFold dry_run acc r).1.documents i := by
  unfold thoughtFold
  cases thoughtOutcome acc.1.documents r with
  | err => exact h
  | skipped => exact h
  | migrated d =>
    by_cases hd : dry_run
    · simpa [hd] using h
    · simpa [hd] using insert_document_preserves_id acc.1.documents d i h

/-- Migration never touches the legacy tables: tweet steps. -/
theorem tweetFold_legacy (dry_run : Bool) (acc : Db × MigStats) (r : TweetRow) :
    (tweetFold dry_run acc r).1.tweets = acc.1.tweets ∧
    (tweetFold dry_run acc r).1.thoughts = acc.1.thoughts := by
  unfold tweetFold
  cases tweetOutcome acc.1.documents r with
  | err => exact ⟨rfl, rfl⟩
  | skipped => exact ⟨rfl, rfl⟩
  | migrated d =>
    by_cases hd : dry_run
    · simp [hd]
    · simp [hd]

/-- Migration never touches the legacy tables: thought steps. -/
theorem thoughtFold_legacy (dry_run : Bool) (acc : Db × MigStats) (r : ThoughtRow) :
    (thoughtFold dry_run acc r).1.tweets = acc.1.tweets ∧
    (thoughtFold dry_run acc r).1.thoughts = acc.1.thoughts := by
  unfold thoughtFold
  cases thoughtOutcome acc.1.documents r with
  | err => exact ⟨rfl, rfl⟩
  | skipped => exact ⟨rfl, rfl⟩
  | migrated d =>
    by_cases hd : dry_run
    · simp [hd]
    · simp [hd]

/-- Errors never decrease along the tweet loop. -/
theorem tweetFold_errors_le (dry_run : Bool) (acc : Db × MigStats) (r : TweetRow) :
    acc.2.errors ≤ (tweetFold dry_run acc r).2.errors := by
  unfold tweetFold
  cases tweetOutcome acc.1.documents r <;> simp

/-- Errors never decrease along the thought loop. -/
theorem thoughtFold_errors_le (dry_run : Bool) (acc : Db × MigStats) (r : ThoughtRow) :
    acc.2.errors ≤ (thoughtFold dry_run acc r).2.errors := by
  unfold thoughtFold
  cases thoughtOutcome acc.1.documents r <;> simp

/-- Errors never decrease over a folded tweet batch. -/
theorem tweetLoop_errors_le (dry_run : Bool) (rows : List TweetRow) :
    ∀ acc : Db × MigStats,
      acc.2.errors ≤ (rows.foldl (tweetFold dry_run) acc).2.errors := by
  induction rows with
  | nil => intro acc; exact Nat.le_refl _
  | cons r rs ih =>
    intro acc
    exact Nat.le_trans (tweetFold_errors_le dry_run acc r) (ih (tweetFold dry_run acc r))

/-- Errors never decrease over a folded thought batch. -/
theorem thoughtLoop_errors_le (dry_run : Bool) (rows : List ThoughtRow) :
    ∀ acc : Db × MigStats,
      acc.2.errors ≤ (rows.foldl (thoughtFold dry_run) acc).2.errors := by
  induction rows with
  | nil => intro acc; exact Nat.le_refl _
  | cons r rs ih =>
    intro acc
    exact Nat.le_trans (thoughtFold_errors_le dry_run acc r) (ih (thoughtFold dry_run acc r))

/-- Reduction of the tweet timestamp conversion on a NULL timestamp. -/
theorem tweetConvert_eq_none (r : TweetRow) (e : Option JsonEntities) (ft : String)
    (hC : r.created_at = none) :
    tweetConvert r e ft = RowOutcome.migrated (tweetDocOf r e ft none) := by
  unfold tweetConvert
  simp only [hC]

/-- Reduction of the tweet timestamp conversion on a parseable
timestamp. -/
theorem tweetConvert_eq_some (r : TweetRow) (e : Option JsonEntities) (ft s dt : String)
    (hC : r.created_at = some s) (hI : fromisoformat (pyReplaceZ s) = some dt) :
    tweetConvert r e ft = RowOutcome.migrated (tweetDocOf r e ft (some dt)) := by
  unfold tweetConvert
  simp only [hC, hI]

/-- Reduction of the tweet timestamp conversion on a malformed
timestamp. -/
theorem tweetConvert_eq_err (r : TweetRow) (e : Option JsonEntities) (ft s : String)
    (hC : r.created_at = some s) (hI : fromisoformat (pyReplaceZ s) = none) :
    tweetConvert r e ft = RowOutcome.err := by
  unfold tweetConvert
  simp only [hC, hI]

/-- Reduction of the thought timestamp conversion on a NULL timestamp. -/
theorem thoughtConvert_eq_none (r : ThoughtRow) (tags : List String) (content : String)
    (hC : r.created_at = none) :
    thoughtConvert r tags content = RowOutcome.migrated (thoughtDocOf r tags content none) := by
  unfold thoughtConvert
  simp only [hC]

/-- Reduction of the thought timestamp conversion on a parseable
timestamp. -/
theorem thoughtConvert_eq_some (r : ThoughtRow) (tags : List String) (content s dt : String)
    (hC : r.created_at = some s) (hI : fromisoformat s = some dt) :
    thoughtConvert r tags content = RowOutcome.migrated (thoughtDocOf r tags content (some dt)) := by
  unfold thoughtConvert
  simp only [hC, hI]

/-- Reduction of the thought timestamp conversion on a malformed
timestamp. -/
theorem thoughtConvert_eq_err (r : ThoughtRow) (tags : List String) (content s : String)
    (hC : r.created_at = some s) (hI : fromisoformat s = none) :
    thoughtConvert r tags content = RowOutcome.err := by
  unfold thoughtConvert
  simp only [hC, hI]

/-- Full case analysis of a tweet row against the probe: either the
derivation fails before the probe (no id, error), or the id is present
(skip), or it is absent and the row errors later or migrates a document
carrying exactly that id. -/
theorem tweetOutcome_spec (documents : List Doc) (r : TweetRow) :
    (tweetDocId r = none ∧ tweetOutcome documents r = RowOutcome.err) ∨
    (∃ did, tweetDocId r = some did ∧
      ((idPresent documents did ∧ tweetOutcome documents r = RowOutcome.skipped) ∨
       (¬ idPresent documents did ∧
         (tweetOutcome documents r = RowOutcome.err ∨
          ∃ d, tweetOutcome documents r = RowOutcome.migrated d ∧ d.id = did)))) := by
  unfold tweetOutcome tweetDocId
  cases hE : tweetEntitiesStep r with
  | none => exact Or.inl ⟨rfl, rfl⟩
  | some e =>
    cases hF : r.full_text with
    | none => exact Or.inl ⟨rfl, rfl⟩
    | some ft =>
      refine Or.inr ⟨generate_document_id ft (tweetSourcePath r) (pyShowOpt r.created_at),
        rfl, ?_⟩
      show (idPresent documents _ ∧ tweetProbe documents r e ft = RowOutcome.skipped) ∨
        (¬ idPresent documents _ ∧
          (tweetProbe documents r e ft = RowOutcome.err ∨
           ∃ d, tweetProbe documents r e ft = RowOutcome.migrated d ∧
             d.id = generate_document_id ft (tweetSourcePath r) (pyShowOpt r.created_at)))
      unfold tweetProbe
      by_cases hp : documents.any
          (fun d => d.id = generate_document_id ft (tweetSourcePath r)
            (pyShowOpt r.created_at)) = true
      · exact Or.inl ⟨hp, by rw [if_pos hp]⟩
      · refine Or.inr ⟨hp, ?_⟩
        rw [if_neg hp]
        rcases Option.eq_none_or_eq_some r.created_at with hC | ⟨s, hC⟩
        · exact Or.inr ⟨tweetDocOf r e ft none, tweetConvert_eq_none r e ft hC, rfl⟩
        · cases hI : fromisoformat (pyReplaceZ s) with
          | none => exact Or.inl (tweetConvert_eq_err r e ft s hC hI)
          | some dt =>
            exact Or.inr ⟨tweetDocOf r e ft (some dt),
              tweetConvert_eq_some r e ft s dt hC hI, rfl⟩

/-- Full case analysis of a thought row against the probe. -/
theorem thoughtOutcome_spec (documents : List Doc) (r : ThoughtRow) :
    (thoughtDocId r = none ∧ thoughtOutcome documents r = RowOutcome.err) ∨
    (∃ did, thoughtDocId r = some did ∧
      ((idPresent documents did ∧ thoughtOutcome documents r = RowOutcome.skipped) ∨
       (¬ idPresent documents did ∧
         (thoughtOutcome documents r = RowOutcome.err ∨
          ∃ d, thoughtOutcome documents r = RowOutcome.migrated d ∧ d.id = did)))) := by
  unfold thoughtOutcome thoughtDocId
  cases hE : thoughtTagsStep r with
  | none => exact Or.inl ⟨rfl, rfl⟩
  | some tags =>
    cases hF : r.content with
    | none => exact Or.inl ⟨rfl, rfl⟩
    | some content =>
      refine Or.inr ⟨generate_document_id content (thoughtSourcePath r)
        (pyShowOpt r.created_at), rfl, ?_⟩
      show (idPresent documents _ ∧ thoughtProbe documents r tags content = RowOutcome.skipped) ∨
        (¬ idPresent documents _ ∧
          (thoughtProbe documents r tags content = RowOutcome.err ∨
           ∃ d, thoughtProbe documents r tags content = RowOutcome.migrated d ∧
             d.id = generate_document_id content (thoughtSourcePath r) (pyShowOpt r.created_at)))
      unfold thoughtProbe
      by_cases hp : documents.any
          (fun d => d.id = generate_document_id content (thoughtSourcePath r)
            (pyShowOpt r.created_at)) = true
      · exact Or.inl ⟨hp, by rw [if_pos hp]⟩
      · refine Or.inr ⟨hp, ?_⟩
        rw [if_neg hp]
        rcases Option.eq_none_or_eq_some r.created_at with hC | ⟨s, hC⟩
        · exact Or.inr ⟨thoughtDocOf r tags content none,
            thoughtConvert_eq_none r tags content hC, rfl⟩
        · cases hI : fromisoformat s with
          | none => exact Or.inl (thoughtConvert_eq_err r tags content s hC hI)
          | some dt =>
            exact Or.inr ⟨thoughtDocOf r tags content (some dt),
              thoughtConvert_eq_some r tags content s dt hC hI, rfl⟩

/-- A skipped tweet row has a computed id that is present. -/
theorem tweetOutcome_skipped_id (documents : List Doc) (r : TweetRow)
    (h : tweetOutcome documents r = RowOutcome.skipped) :
    ∃ did, tweetDocId r = some did ∧ idPresent documents did := by
  rcases tweetOutcome_spec documents r with ⟨-, he⟩ | ⟨did, hdid, hin⟩
  · rw [h] at he; cases he
  · rcases hin with ⟨hp, -⟩ | ⟨-, he | ⟨d, he, -⟩⟩
    · exact ⟨did, hdid, hp⟩
    · rw [h] at he; cases he
    · rw [h] at he; cases he

/-- A migrated tweet row has a computed id carried by the new document. -/
theorem tweetOutcome_migrated_id (documents : List Doc) (r : TweetRow) (d : Doc)
    (h : tweetOutcome documents r = RowOutcome.migrated d) :
    tweetDocId r = some d.id := by
  rcases tweetOutcome_spec documents r with ⟨-, he⟩ | ⟨did, hdid, hin⟩
  · rw [h] at he; cases he
  · rcases hin with ⟨-, he⟩ | ⟨-, he | ⟨d2, he, hid⟩⟩
    · rw [h] at he; cases he
    · rw [h] at he; cases he
    · rw [h] at he
      cases he
      rw [hdid, hid]

/-- A tweet row whose computed id is present is skipped. -/
theorem tweetOutcome_of_present (documents : List Doc) (r : TweetRow) (did : String)
    (hdid : tweetDocId r = some did) (hp : idPresent documents did) :
    tweetOutcome documents r = RowOutcome.skipped := by
  rcases tweetOutcome_spec documents r with ⟨hnone, -⟩ | ⟨did2, hdid2, hin⟩
  · rw [hdid] at hnone; cases hnone
  · rw [hdid] at hdid2
    cases hdid2
    rcases hin with ⟨-, he⟩ | ⟨hnp, -⟩
    · exact he
    · exact absurd hp hnp

/-- A skipped thought row has a computed id that is present. -/
theorem thoughtOutcome_skipped_id (documents : List Doc) (r : ThoughtRow)
    (h : thoughtOutcome documents r = RowOutcome.skipped) :
    ∃ did, thoughtDocId r = some did ∧ idPresent documents did := by
  rcases thoughtOutcome_spec documents r with ⟨-, he⟩ | ⟨did, hdid, hin⟩
  · rw [h] at he; cases he
  · rcases hin with ⟨hp, -⟩ | ⟨-, he | ⟨d, he, -⟩⟩
    · exact ⟨did, hdid, hp⟩
    · rw [h] at he; cases he
    · rw [h] at he; cases he

/-- A migrated thought row has a computed id carried by the new
document. -/
theorem thoughtOutcome_migrated_id (documents : List Doc) (r : ThoughtRow) (d : Doc)
    (h : thoughtOutcome documents r = RowOutcome.migrated d) :
    thoughtDocId r = some d.id := by
  rcases thoughtOutcome_spec documents r with ⟨-, he⟩ | ⟨did, hdid, hin⟩
  · rw [h] at he; cases he
  · rcases hin with ⟨-, he⟩ | ⟨-, he | ⟨d2, he, hid⟩⟩
    · rw [h] at he; cases he
    · rw [h] at he; cases he
    · rw [h] at he
      cases he
      rw [hdid, hid]

/-- A thought row whose computed id is present is skipped. -/
theorem thoughtOutcome_of_present (documents : List Doc) (r : ThoughtRow) (did : String)
    (hdid : thoughtDocId r = some did) (hp : idPresent documents did) :
    thoughtOutcome documents r = RowOutcome.skipped := by
  rcases thoughtOutcome_spec documents r with ⟨hnone, -⟩ | ⟨did2, hdid2, hin⟩
  · rw [hdid] at hnone; cases hnone
  · rw [hdid] at hdid2
    cases hdid2
    rcases hin with ⟨-, he⟩ | ⟨hnp, -⟩
    · exact he
    · exact absurd hp hnp

/-- After an errorless (non-dry) tweet batch, every row's computed id is
present in the resulting documents table. -/
theorem tweetLoop_all_present (rows : List TweetRow) :
    ∀ acc : Db × MigStats,
      (rows.foldl (tweetFold false) acc).2.errors = acc.2.errors →
      ∀ r ∈ rows, ∃ did, tweetDocId r = some did ∧
        idPresent (rows.foldl (tweetFold false) acc).1.documents did := by
  induction rows with
  | nil => intro acc _ r hr; exact absurd hr (List.not_mem_nil r)
  | cons r0 rs ih =>
    intro acc herr r hr
    rw [List.foldl_cons] at herr ⊢
    have h1 : acc.2.errors ≤ (tweetFold false acc r0).2.errors :=
      tweetFold_errors_le false acc r0
    have h2 : (tweetFold false acc r0).2.errors ≤
        (rs.foldl (tweetFold false) (tweetFold false acc r0)).2.errors :=
      tweetLoop_errors_le false rs (tweetFold false acc r0)
    have heq1 : (tweetFold false acc r0).2.errors = acc.2.errors :=
      Nat.le_antisymm (herr ▸ h2) h1
    have hne : tweetOutcome acc.1.documents r0 ≠ RowOutcome.err := by
      intro he
      have hplus : (tweetFold false acc r0).2.errors = acc.2.errors + 1 := by
        unfold tweetFold
        rw [he]
      omega
    rcases List.mem_cons.mp hr with rfl | hr2
    · cases ho : tweetOutcome acc.1.documents r with
      | err => exact absurd ho hne
      | skipped =>
        obtain ⟨did, hdid, hpres⟩ := tweetOutcome_skipped_id _ _ ho
        refine ⟨did, hdid, ?_⟩
        have hpres1 : idPresent (tweetFold false acc r).1.documents did := by
          unfold tweetFold
          rw [ho]
          exact hpres
        exact foldl_inv (tweetFold false) (fun a => idPresent a.1.documents did)
          rs (tweetFold false acc r)
          (fun a x _ hp => tweetFold_preserves_id false a x did hp) hpres1
      | migrated d =>
        have hdid := tweetOutcome_migrated_id _ _ _ ho
        refine ⟨d.id, hdid, ?_⟩
        have hpres1 : idPresent (tweetFold false acc r).1.documents d.id := by
          unfold tweetFold
          rw [ho]
          exact insert_document_adds_id acc.1.documents d
        exact foldl_inv (tweetFold false) (fun a => idPresent a.1.documents d.id)
          rs (tweetFold false acc r)
          (fun a x _ hp => tweetFold_preserves_id false a x d.id hp) hpres1
    · have herr2 : (rs.foldl (tweetFold false) (tweetFold false acc r0)).2.errors =
          (tweetFold false acc r0).2.errors := by
        rw [herr, heq1]
      exact ih (tweetFold false acc r0) herr2 r hr2

/-- After an errorless (non-dry) thought batch, every row's computed id
is present in the resulting documents table. -/
theorem thoughtLoop_all_present (rows : List ThoughtRow) :
    ∀ acc : Db × MigStats,
      (rows.foldl (thoughtFold false) acc).2.errors = acc.2.errors →
      ∀ r ∈ rows, ∃ did, thoughtDocId r = some did ∧
        idPresent (rows.foldl (thoughtFold false) acc).1.documents did := by
  induction rows with
  | nil => intro acc _ r hr; exact absurd hr (List.not_mem_nil r)
  | cons r0 rs ih =>
    intro acc herr r hr
    rw [List.foldl_cons] at herr ⊢
    have h1 : acc.2.errors ≤ (thoughtFold false acc r0).2.errors :=
      thoughtFold_errors_le false acc r0
    have h2 : (thoughtFold false acc r0).2.errors ≤
        (rs.foldl (thoughtFold false) (thoughtFold false acc r0)).2.errors :=
      thoughtLoop_errors_le false rs (thoughtFold false acc r0)
    have heq1 : (thoughtFold false acc r0).2.errors = acc.2.errors :=
      Nat.le_antisymm (herr ▸ h2) h1
    have hne : thoughtOutcome acc.1.documents r0 ≠ RowOutcome.err := by
      intro he
      have hplus : (thoughtFold false acc r0).2.errors = acc.2.errors + 1 := by
        unfold thoughtFold
        rw [he]
      omega
    rcases List.mem_cons.mp hr with rfl | hr2
    · cases ho : thoughtOutcome acc.1.documents r with
      | err => exact absurd ho hne
      | skipped =>
        obtain ⟨did, hdid, hpres⟩ := thoughtOutcome_skipped_id _ _ ho
        refine ⟨did, hdid, ?_⟩
        have hpres1 : idPresent (thoughtFold false acc r).1.documents did := by
          unfold thoughtFold
          rw [ho]
          exact hpres
        exact foldl_inv (thoughtFold false) (fun a => idPresent a.1.documents did)
          rs (thoughtFold false acc r)
          (fun a x _ hp => thoughtFold_preserves_id false a x did hp) hpres1
      | migrated d =>
        have hdid := thoughtOutcome_migrated_id _ _ _ ho
        refine ⟨d.id, hdid, ?_⟩
        have hpres1 : idPresent (thoughtFold false acc r).1.documents d.id := by
          unfold thoughtFold
          rw [ho]
          exact insert_document_adds_id acc.1.documents d
        exact foldl_inv (thoughtFold false) (fun a => idPresent a.1.documents d.id)
          rs (thoughtFold false acc r)
          (fun a x _ hp => thoughtFold_preserves_id false a x d.id hp) hpres1
    · have herr2 : (rs.foldl (thoughtFold false) (thoughtFold false acc r0)).2.errors =
          (thoughtFold false acc r0).2.errors := by
        rw [herr, heq1]
      exact ih (thoughtFold false acc r0) herr2 r hr2

/-- A tweet batch whose ids are all already present only skips: the store
is unchanged and every row is counted under `skipped`. -/
theorem tweetLoop_all_skip (dry_run : Bool) (rows : List TweetRow) :
    ∀ acc : Db × MigStats,
      (∀ r ∈ rows, ∃ did, tweetDocId r = some did ∧ idPresent acc.1.documents did) →
      (rows.foldl (tweetFold dry_run) acc).1 = acc.1 ∧
      (rows.foldl (tweetFold dry_run) acc).2.migrated = acc.2.migrated ∧
      (rows.foldl (tweetFold dry_run) acc).2.skipped = acc.2.skipped + rows.length ∧
      (rows.foldl (tweetFold dry_run) acc).2.total = acc.2.total := by
  induction rows with
  | nil => intro acc _; simp
  | cons r0 rs ih =>
    intro acc hall
    obtain ⟨did, hdid, hpres⟩ := hall r0 (List.mem_cons_self r0 rs)
    have ho := tweetOutcome_of_present acc.1.documents r0 did hdid hpres
    have hstep : tweetFold dry_run acc r0 =
        (acc.1, { acc.2 with skipped := acc.2.skipped + 1 }) := by
      unfold tweetFold
      rw [ho]
    rw [List.foldl_cons, hstep]
    have hall2 : ∀ r ∈ rs, ∃ did, tweetDocId r = some did ∧
        idPresent (acc.1, { acc.2 with skipped := acc.2.skipped + 1 }).1.documents did := by
      intro r hr
      exact hall r (List.mem_cons_of_mem r0 hr)
    obtain ⟨ha, hb, hc, hd⟩ := ih (acc.1, { acc.2 with skipped := acc.2.skipped + 1 }) hall2
    refine ⟨ha, by simpa using hb, ?_, by simpa using hd⟩
    rw [hc]
    simp only [List.length_cons]
    omega

/-- A thought batch whose ids are all already present only skips. -/
theorem thoughtLoop_all_skip (dry_run : Bool) (rows : List ThoughtRow) :
    ∀ acc : Db × MigStats,
      (∀ r ∈ rows, ∃ did, thoughtDocId r = some did ∧ idPresent acc.1.documents did) →
      (rows.foldl (thoughtFold dry_run) acc).1 = acc.1 ∧
      (rows.foldl (thoughtFold dry_run) acc).2.migrated = acc.2.migrated ∧
      (rows.foldl (thoughtFold dry_run) acc).2.skipped = acc.2.skipped + rows.length ∧
      (rows.foldl (thoughtFold dry_run) acc).2.total = acc.2.total := by
  induction rows with
  | nil => intro acc _; simp
  | cons r0 rs ih =>
    intro acc hall
    obtain ⟨did, hdid, hpres⟩ := hall r0 (List.mem_cons_self r0 rs)
    have ho := thoughtOutcome_of_present acc.1.documents r0 did hdid hpres
    have hstep : thoughtFold dry_run acc r0 =
        (acc.1, { acc.2 with skipped := acc.2.skipped + 1 }) := by
      unfold thoughtFold
      rw [ho]
    rw [List.foldl_cons, hstep]
    have hall2 : ∀ r ∈ rs, ∃ did, thoughtDocId r = some did ∧
        idPresent (acc.1, { acc.2 with skipped := acc.2.skipped + 1 }).1.documents did := by
      intro r hr
      exact hall r (List.mem_cons_of_mem r0 hr)
    obtain ⟨ha, hb, hc, hd⟩ := ih (acc.1, { acc.2 with skipped := acc.2.skipped + 1 }) hall2
    refine ⟨ha, by simpa using hb, ?_, by simpa using hd⟩
    rw [hc]
    simp only [List.length_cons]
    omega

/-- The tweet loop never changes the legacy tables. -/
theorem tweetLoop_legacy (dry_run : Bool) (rows : List TweetRow) (acc : Db × MigStats) :
    (rows.foldl (tweetFold dry_run) acc).1.tweets = acc.1.tweets ∧
    (rows.foldl (tweetFold dry_run) acc).1.thoughts = acc.1.thoughts := by
  refine foldl_inv (tweetFold dry_run)
    (fun a => a.1.tweets = acc.1.tweets ∧ a.1.thoughts = acc.1.thoughts) rows acc
    (fun a x _ hp => ?_) ⟨rfl, rfl⟩
  obtain ⟨hl1, hl2⟩ := tweetFold_legacy dry_run a x
  exact ⟨hl1.trans hp.1, hl2.trans hp.2⟩

/-- The thought loop never changes the legacy tables. -/
theorem thoughtLoop_legacy (dry_run : Bool) (rows : List ThoughtRow) (acc : Db × MigStats) :
    (rows.foldl (thoughtFold dry_run) acc).1.tweets = acc.1.tweets ∧
    (rows.foldl (thoughtFold dry_run) acc).1.thoughts = acc.1.thoughts := by
  refine foldl_inv (thoughtFold dry_run)
    (fun a => a.1.tweets = acc.1.tweets ∧ a.1.thoughts = acc.1.thoughts) rows acc
    (fun a x _ hp => ?_) ⟨rfl, rfl⟩
  obtain ⟨hl1, hl2⟩ := thoughtFold_legacy dry_run a x
  exact ⟨hl1.trans hp.1, hl2.trans hp.2⟩

/-- C4 (amended): if the first `run_full_migration(dry_run=False)` over a
fixed store reports zero `errors` in both the tweets and the thoughts
sub-results, then running it a second time on the resulting store
returns `migrated == 0` and `skipped == total` in both sub-results.
(When the first run has errors, the failing rows error again rather than
being skipped, the counterexample to the unamended claim.) -/
theorem run_full_migration_idempotent (db : Db)
    (ht : (run_full_migration false db).2.tweets.errors = 0)
    (hh : (run_full_migration false db).2.thoughts.errors = 0) :
    (run_full_migration false (run_full_migration false db).1).2.tweets.migrated = 0 ∧
    (run_full_migration false (run_full_migration false db).1).2.tweets.skipped =
      (run_full_migration false (run_full_migration false db).1).2.tweets.total ∧
    (run_full_migration false (run_full_migration false db).1).2.thoughts.migrated = 0 ∧
    (run_full_migration false (run_full_migration false db).1).2.thoughts.skipped =
      (run_full_migration false (run_full_migration false db).1).2.thoughts.total := by
  unfold run_full_migration at ht hh ⊢
  dsimp only at ht hh ⊢
  set dbX := (migrate_tweets_to_documents false db).1 with hdbX
  set dbY := (migrate_thoughts_to_documents false dbX).1 with hdbY
  -- every tweet row's id is present after the first tweet pass
  have hTpres : ∀ r ∈ db.tweets, ∃ did, tweetDocId r = some did ∧
      idPresent dbX.documents did :=
    tweetLoop_all_present db.tweets
      (db, { total := db.tweets.length, migrated := 0, skipped := 0, errors := 0 }) ht
  -- and stays present through the thought pass
  have hTpres2 : ∀ r ∈ db.tweets, ∃ did, tweetDocId r = some did ∧
      idPresent dbY.documents did := by
    intro r hr
    obtain ⟨did, h1, h2⟩ := hTpres r hr
    exact ⟨did, h1,
      foldl_inv (thoughtFold false) (fun a => idPresent a.1.documents did)
        dbX.thoughts
        (dbX, { total := dbX.thoughts.length, migrated := 0, skipped := 0, errors := 0 })
        (fun a x _ hp => thoughtFold_preserves_id false a x did hp) h2⟩
  -- every thought row's id is present after the first run
  have hHpres : ∀ r ∈ dbX.thoughts, ∃ did, thoughtDocId r = some did ∧
      idPresent dbY.documents did :=
    thoughtLoop_all_present dbX.thoughts
      (dbX, { total := dbX.thoughts.length, migrated := 0, skipped := 0, errors := 0 }) hh
  -- migration never rewrites the legacy tables
  have hXt : dbX.tweets = db.tweets :=
    (tweetLoop_legacy false db.tweets
      (db, { total := db.tweets.length, migrated := 0, skipped := 0, errors := 0 })).1
  have hXh : dbX.thoughts = db.thoughts :=
    (tweetLoop_legacy false db.tweets
      (db, { total := db.tweets.length, migrated := 0, skipped := 0, errors := 0 })).2
  have hYt : dbY.tweets = dbX.tweets :=
    (thoughtLoop_legacy false dbX.thoughts
      (dbX, { total := dbX.thoughts.length, migrated := 0, skipped := 0, errors := 0 })).1
  have hYh : dbY.thoughts = dbX.thoughts :=
    (thoughtLoop_legacy false dbX.thoughts
      (dbX, { total := dbX.thoughts.length, migrated := 0, skipped := 0, errors := 0 })).2
  -- second tweet pass: all ids present, so everything skips
  have hall2T : ∀ r ∈ dbY.tweets, ∃ did, tweetDocId r = some did ∧
      idPresent dbY.documents did := by
    rw [hYt, hXt]
    exact hTpres2
  have skipT := tweetLoop_all_skip false dbY.tweets
    (dbY, { total := dbY.tweets.length, migrated := 0, skipped := 0, errors := 0 }) hall2T
  have hA : (migrate_tweets_to_documents false dbY).1 = dbY := skipT.1
  have hTm : (migrate_tweets_to_documents false dbY).2.migrated = 0 := skipT.2.1
  have hTs : (migrate_tweets_to_documents false dbY).2.skipped = 0 + dbY.tweets.length :=
    skipT.2.2.1
  have hTt : (migrate_tweets_to_documents false dbY).2.total = dbY.tweets.length :=
    skipT.2.2.2
  rw [hA]
  -- second thought pass: all ids present, so everything skips
  have hall2H : ∀ r ∈ dbY.thoughts, ∃ did, thoughtDocId r = some did ∧
      idPresent dbY.documents did := by
    rw [hYh]
    exact hHpres
  have skipH := thoughtLoop_all_skip false dbY.thoughts
    (dbY, { total := dbY.thoughts.length, migrated := 0, skipped := 0, errors := 0 }) hall2H
  have hHm : (migrate_thoughts_to_documents false dbY).2.migrated = 0 := skipH.2.1
  have hHs : (migrate_thoughts_to_documents false dbY).2.skipped = 0 + dbY.thoughts.length :=
    skipH.2.2.1
  have hHt : (migrate_thoughts_to_documents false dbY).2.total = dbY.thoughts.length :=
    skipH.2.2.2
  refine ⟨hTm, ?_, hHm, ?_⟩
  · rw [hTs, hTt]
    omega
  · rw [hHs, hHt]
    omega

/-- A store holding a single tweet row whose timestamp
`datetime.fromisoformat` rejects. -/
def idemBadDb : Db :=
  { tweets := [{ tweet_id := some "9", user_id := some "alice",
                 created_at := some "not-a-date", full_text := some "hello",
                 reply_to_tweet_id := none, reply_to_user := none,
                 retweet_count := some 0, favorite_count := some 0,
                 is_retweet := some 0, is_reply := some 0, entities := none }],
    thoughts := [], documents := [] }

/-- Counterexample to C4 as stated: over a store with one
malformed-timestamp tweet, the first run errors the row (it is never
inserted), so the second run errors it again instead of skipping it —
the second run reports `skipped = 0 ≠ 1 = total`. -/
theorem run_full_migration_idempotence_fails :
    ¬ ((run_full_migration false (run_full_migration false idemBadDb).1).2.tweets.skipped =
       (run_full_migration false (run_full_migration false idemBadDb).1).2.tweets.total) := by
  decide

/-- A store with one well-formed tweet row and one well-formed thought
row. -/
def idemGoodDb : Db :=
  { tweets := [{ tweet_id := some "1", user_id := some "bob",
                 created_at := some "2020-02-02T00:00:00", full_text := some "hi",
                 reply_to_tweet_id := none, reply_to_user := none,
                 retweet_count := some 0, favorite_count := some 0,
                 is_retweet := some 0, is_reply := some 0, entities := none }],
    thoughts := [{ id := 3, content := some "note", tags := none, category := none,
                   created_at := some "2021-06-06", updated_at := none }],
    documents := [] }

set_option maxRecDepth 4000 in
/-- Witness for the amended C4: an errorless store migrates cleanly once
and the second run only skips. -/
theorem run_full_migration_idempotent_witness :
    (run_full_migration false (run_full_migration false idemGoodDb).1).2.tweets.migrated = 0 ∧
    (run_full_migration false (run_full_migration false idemGoodDb).1).2.tweets.skipped =
      (run_full_migration false (run_full_migration false idemGoodDb).1).2.tweets.total ∧
    (run_full_migration false (run_full_migration false idemGoodDb).1).2.thoughts.migrated = 0 ∧
    (run_full_migration false (run_full_migration false idemGoodDb).1).2.thoughts.skipped =
      (run_full_migration false (run_full_migration false idemGoodDb).1).2.thoughts.total :=
  run_full_migration_idempotent idemGoodDb (by decide) (by decide)
